import Mathlib

/-!
Verification development for the `cdk-functions` infrastructure library.

The TypeScript sources are shallowly embedded: each construct's constructor
is modelled as a pure function from a property record to the list of cloud
resources it declares (in declaration order), and each stack constructor as
a function into `Except String (List Resource)`, where `Except.error`
models a thrown validation error.  JavaScript string operations used by the
code (`substring`, `toLowerCase`, `split`, `includes`, `startsWith`,
`replace` with the concrete regexes appearing in the sources) are modelled
as executable functions on `String.data` (lists of characters, ASCII
semantics).
-/

namespace CdkFn

/-! ## JavaScript string primitives -/

/-- ASCII lower-casing of a single character, as `String.prototype.toLowerCase`
behaves on ASCII input (identifiers in this code base are ASCII). -/
def lowerChar : Char → Char
  | 'A' => 'a' | 'B' => 'b' | 'C' => 'c' | 'D' => 'd' | 'E' => 'e'
  | 'F' => 'f' | 'G' => 'g' | 'H' => 'h' | 'I' => 'i' | 'J' => 'j'
  | 'K' => 'k' | 'L' => 'l' | 'M' => 'm' | 'N' => 'n' | 'O' => 'o'
  | 'P' => 'p' | 'Q' => 'q' | 'R' => 'r' | 'S' => 's' | 'T' => 't'
  | 'U' => 'u' | 'V' => 'v' | 'W' => 'w' | 'X' => 'x' | 'Y' => 'y'
  | 'Z' => 'z'
  | c => c

/-- Model of `s.toLowerCase()`. -/
def jsToLower (s : String) : String := ⟨s.data.map lowerChar⟩

/-- Model of `s.substring(0, n)`. -/
def jsSubstrTo (s : String) (n : Nat) : String := ⟨s.data.take n⟩

/-- Accumulator-passing splitter used to model `s.split(sep)` for a
one-character separator. -/
def splitCharGo (sep : Char) : List Char → List Char → List (List Char)
  | acc, [] => [acc.reverse]
  | acc, c :: rest =>
      if c = sep then acc.reverse :: splitCharGo sep [] rest
      else splitCharGo sep (c :: acc) rest

/-- Model of `s.split(sep)` for a one-character separator string. -/
def jsSplitChar (sep : Char) (s : String) : List String :=
  (splitCharGo sep [] s.data).map (fun l => ⟨l⟩)

/-- Substring search on character lists, used to model `s.includes(t)`. -/
def containsSeq (pat : List Char) : List Char → Bool
  | [] => pat.isEmpty
  | c :: rest => pat.isPrefixOf (c :: rest) || containsSeq pat rest

/-- Model of `s.includes(t)`. -/
def jsIncludes (s t : String) : Bool := containsSeq t.data s.data

/-- Model of `s.startsWith(t)`. -/
def jsStartsWith (s t : String) : Bool := t.data.isPrefixOf s.data

/-- Truthiness of an optional JavaScript string: `undefined` and the empty
string are falsy, every other string is truthy. -/
def truthyS : Option String → Bool
  | none => false
  | some s => !s.data.isEmpty

/-- Truthiness of an optional JavaScript boolean. -/
def truthyB : Option Bool → Bool
  | none => false
  | some b => b

/-- Value of an optional string, defaulting to the empty string. -/
def getS (o : Option String) : String := o.getD ""

/-- Model of the JavaScript `a || d` default pattern on an optional string:
the default applies when the value is absent or empty (falsy). -/
def orDefaultS (o : Option String) (d : String) : String :=
  match o with
  | none => d
  | some s => if s.data.isEmpty then d else s

/-! ## Path sanitizers

Three sanitizer variants occur in the sources:
the simple variant of `lib/functions.ts` (first copy, lines 41-44),
the character-filtering variant of `lib/functions.ts` (second copy,
lines 423-426), and the stack-level copy in `part_004` (textually equal
to the simple one). -/

/-- Drop the leading run of slash characters (the `^\/+` regex branch). -/
def dropLeadSlash (l : List Char) : List Char := l.dropWhile (· = '/')

/-- Drop the trailing run of slash characters (the `\/+$` regex branch). -/
def dropTrailSlash (l : List Char) : List Char :=
  (l.reverse.dropWhile (· = '/')).reverse

/-- Model of `path.replace(/^\/+|\/+$/g, '')`. -/
def stripSlashes (s : String) : String := ⟨dropTrailSlash (dropLeadSlash s.data)⟩

/-- Sanitizer of `lib/functions.ts` (first copy): returns the empty string on
`undefined` (or empty, both falsy) input, otherwise strips leading and
trailing slashes. -/
def sanitizePathA : Option String → String
  | none => ""
  | some s => if s.data.isEmpty then "" else stripSlashes s

/-- Sanitizer of the `part_004` stack variant; its body is identical to the
one in the first copy of `lib/functions.ts`. -/
def sanitizePathStack : Option String → String
  | none => ""
  | some s => if s.data.isEmpty then "" else stripSlashes s

/-- Character class `[a-zA-Z0-9._\-@#$%^&*+=~ /]` of the filtering sanitizer. -/
def allowedChar (c : Char) : Bool :=
  (97 ≤ c.toNat && c.toNat ≤ 122) || (65 ≤ c.toNat && c.toNat ≤ 90) ||
  (48 ≤ c.toNat && c.toNat ≤ 57) ||
  c ∈ ['.', '_', '-', '@', '#', '$', '%', '^', '&', '*', '+', '=', '~', ' ', '/']

/-- Model of the first `replace` of the filtering sanitizer: the regex
`[^a-zA-Z0-9._\-@#$%^&*+=~ /]|\/+` scanned globally, where a run of slashes
is replaced by a single slash and a disallowed character by nothing.  The
boolean argument records whether the previous original character was a
slash (i.e. whether we are inside an already-replaced slash run). -/
def scanFilter : Bool → List Char → List Char
  | _, [] => []
  | inRun, c :: rest =>
      if c = '/' then (if inRun then [] else ['/']) ++ scanFilter true rest
      else (if allowedChar c then [c] else []) ++ scanFilter false rest

/-- Sanitizer of `lib/functions.ts` (second copy): filters characters and
collapses slash runs, then strips leading and trailing slashes. -/
def sanitizePathB : Option String → String
  | none => ""
  | some s => if s.data.isEmpty then "" else stripSlashes ⟨scanFilter false s.data⟩

/-! ## Resource name computation -/

/-- Resource id computation of the first `FunctionsConstruct` copy
(also used by `part_001`, `part_002` and the stack files):
the identity triple joined with dashes, truncated to 42 characters. -/
def resourceIdPrefixA (a s e : String) : String :=
  jsSubstrTo (a ++ "-" ++ s ++ "-" ++ e) 42

/-- Resource id computation of the second `FunctionsConstruct` copy: each
component truncated to 7 characters, joined with dashes, truncated to 23
characters and lower-cased. -/
def resourceIdPrefixB (a s e : String) : String :=
  jsToLower (jsSubstrTo (jsSubstrTo a 7 ++ "-" ++ jsSubstrTo s 7 ++ "-" ++ jsSubstrTo e 7) 23)

/-- Zone name used by `createDnsRecords` in every construct variant:
`domainParts[domainParts.length - 1]`, the last dot-separated label of the
domain string. -/
def zoneNameOf (d : String) : String := (jsSplitChar '.' d).getLastD ""

/-- Modelled from the spec: the spec (section 4.2) states the zone name is
taken from the last two labels of the domain string; this comparator
definition follows those words and is absent from the code. -/
def specZoneName (d : String) : String :=
  match (jsSplitChar '.' d).reverse with
  | tld :: sld :: _ => sld ++ "." ++ tld
  | [tld] => tld
  | [] => ""

/-! ## Property records (from `FunctionProps.ts` and its variants) -/

/-- Lambda `Runtime` constants used by the sources. -/
inductive RuntimeV where
  | NODEJS_20_X
  | NODEJS_18_X
  | PROVIDED_AL2023
deriving DecidableEq, Repr

/-- Lambda `Architecture` constants used by the sources. -/
inductive ArchV where
  | ARM_64
  | X86_64
deriving DecidableEq, Repr

/-- A `{ key, resource }` reference to a secret or parameter. -/
structure SecretRef where
  key : String
  resource : String
deriving DecidableEq, Repr

/-- The `sourceProps` Github coordinates. -/
structure SourceProps where
  owner : Option String
  repo : Option String
  branchOrRef : Option String
deriving DecidableEq, Repr

/-- The `buildProps` CodeBuild settings (fields used by the pipeline). -/
structure BuildProps where
  runtime : Option String
  runtime_version : Option String
  installcmd : Option String
  buildcmd : Option String
deriving DecidableEq, Repr

/-- The `env` account/region record. -/
structure EnvAR where
  account : String
  region : String
deriving DecidableEq, Repr

/-- The `functionProps` record.  A runtime or architecture value is either a
CDK constant or a raw string that survived the entry-point mapping
(JavaScript performs no runtime type check). -/
structure LambdaProps where
  url : Option Bool := none
  runtime : Option (Sum RuntimeV String) := none
  architecture : Option (Sum ArchV String) := none
  codeDir : Option String := none
  varEntries : Option (List (List (String × String))) := none
  secrets : Option (List SecretRef) := none
  dockerFile : Option String := none
  provisionedConcurrency : Option Nat := none
  keepWarm : Option Bool := none
deriving DecidableEq, Repr

/-- The top-level property record handed to the stacks and constructs. -/
structure Props where
  env : Option EnvAR := none
  application : String := ""
  service : String := ""
  environment : String := ""
  rootDir : Option String := none
  contextDirectory : Option String := none
  functionProps : Option LambdaProps := none
  environmentVariables : Option (List SecretRef) := none
  domain : Option String := none
  regionalCertificateArn : Option String := none
  hostedZoneId : Option String := none
  accessTokenSecretArn : Option String := none
  eventTarget : Option String := none
  sourceProps : Option SourceProps := none
  buildProps : Option BuildProps := none
deriving DecidableEq, Repr

/-- Optional-chaining accessor for `props.functionProps?.dockerFile`. -/
def dockerFileOf (p : Props) : Option String := p.functionProps.bind (·.dockerFile)

/-- Optional-chaining accessor for `props.functionProps?.provisionedConcurrency`. -/
def pcOf (p : Props) : Option Nat := p.functionProps.bind (·.provisionedConcurrency)

/-- Optional-chaining accessor for `props.functionProps?.variables`. -/
def varsOf (p : Props) : Option (List (List (String × String))) :=
  p.functionProps.bind (·.varEntries)

/-- Optional-chaining accessor for `props.functionProps?.secrets`. -/
def secretsOf (p : Props) : Option (List SecretRef) := p.functionProps.bind (·.secrets)

/-- Optional-chaining accessor for `props.functionProps?.url`. -/
def urlOf (p : Props) : Option Bool := p.functionProps.bind (·.url)

/-- Optional-chaining accessor for `props.functionProps?.keepWarm`. -/
def keepWarmOf (p : Props) : Option Bool := p.functionProps.bind (·.keepWarm)

/-- Optional-chaining accessor for `props.functionProps?.runtime`. -/
def runtimeOf (p : Props) : Option (Sum RuntimeV String) :=
  p.functionProps.bind (·.runtime)

/-- Optional-chaining accessor for `props.functionProps?.architecture`. -/
def archOf (p : Props) : Option (Sum ArchV String) :=
  p.functionProps.bind (·.architecture)

/-- Truthiness of a runtime-or-string value (a CDK constant object is always
truthy; a string is truthy iff non-empty). -/
def truthyRT : Option (Sum RuntimeV String) → Bool
  | none => false
  | some (Sum.inl _) => true
  | some (Sum.inr s) => !s.data.isEmpty

/-- Truthiness of an architecture-or-string value. -/
def truthyAR : Option (Sum ArchV String) → Bool
  | none => false
  | some (Sum.inl _) => true
  | some (Sum.inr s) => !s.data.isEmpty

/-- Model of `props.functionProps?.runtime || Runtime.NODEJS_20_X`
(`lib/functions.ts` line 229). -/
def effectiveRuntime (o : Option (Sum RuntimeV String)) : Sum RuntimeV String :=
  if truthyRT o then o.getD (Sum.inl RuntimeV.NODEJS_20_X)
  else Sum.inl RuntimeV.NODEJS_20_X

/-- Model of `props.functionProps?.architecture || Architecture.ARM_64`
(`lib/functions.ts` line 230). -/
def effectiveArch (o : Option (Sum ArchV String)) : Sum ArchV String :=
  if truthyAR o then o.getD (Sum.inl ArchV.ARM_64)
  else Sum.inl ArchV.ARM_64

/-! ## Declared resources -/

/-- The deploy-time value fetched from a Secrets Manager secret, represented
symbolically as a function of the secret ARN. -/
def secretValueOf (arn : String) : String := "secretValue(" ++ arn ++ ")"

/-- The deploy-time value fetched from an SSM parameter, represented
symbolically as a function of the parameter name. -/
def paramValueOf (name : String) : String := "paramValue(" ++ name ++ ")"

/-- One provider resource declaration (or recorded side effect such as an
environment-variable assignment or an IAM grant), in declaration order. -/
inductive Resource where
  | containerFn (name : String) (arch : Sum ArchV String)
  | zipFn (name : String) (runtime : Sum RuntimeV String) (arch : Sum ArchV String)
  | logGroup (name : String)
  | rolePolicy (actions : List String)
  | lambdaAlias (aliasName : String) (provisioned : Nat)
  | envVar (key : String) (value : String)
  | secretGrant (arn : String)
  | paramGrant (name : String)
  | domainBinding (domain : String) (certArn : String)
  | httpApi (name : String)
  | restApi (name : String)
  | fnUrl
  | hostedZoneImport (zoneId : String) (zoneName : String)
  | aRecord (recordName : String) (zoneName : String)
  | aaaaRecord (recordName : String) (zoneName : String)
  | pingRule (name : String)
  | output (name : String)
  | ecrRepository (name : String)
  | bucket (name : String)
  | zipBuildProject (name rt rtVer installcmd buildcmd : String)
  | codeBuildProject (name : String)
  | pipelineRes (name : String)
  | eventsForwarder
deriving DecidableEq, Repr

/-! ## FunctionsConstruct, first copy (`lib/functions.ts` lines 25-384) -/

/-- Function-creation segment of the first copy: a container-image function
when `dockerFile` is truthy (plus ECR role policies when an access token is
present), otherwise a zip-package function; each creation also records the
environment passed at creation time. -/
def fnSegA (p : Props) : List Resource :=
  let pre := resourceIdPrefixA p.application p.service p.environment
  if truthyS (dockerFileOf p) then
    [Resource.containerFn (pre ++ "-container-function") (effectiveArch (archOf p)),
     Resource.envVar "NODE_OPTIONS" "--enable-source-maps",
     Resource.envVar "NITRO_PRESET" "aws-lambda"] ++
    (if truthyS p.accessTokenSecretArn then
      [Resource.rolePolicy ["ecr:GetAuthorizationToken"],
       Resource.rolePolicy ["ecr:BatchCheckLayerAvailability", "ecr:GetDownloadUrlForLayer",
         "ecr:BatchGetImage", "ecr:DescribeImages", "ecr:DescribeRepositories"]]
     else [])
  else
    [Resource.zipFn (pre ++ "-function") (effectiveRuntime (runtimeOf p)) (effectiveArch (archOf p)),
     Resource.envVar "NODE_OPTIONS" "--enable-source-maps",
     Resource.envVar "NITRO_PRESET" "aws-lambda"]

/-- Alias segment of the first copy: created whenever
`provisionedConcurrency !== undefined`, including the value `0`. -/
def aliasSegA (pc : Option Nat) : List Resource :=
  match pc with
  | none => []
  | some n => [Resource.lambdaAlias "live" n]

/-- Alias segment of the second copy: created only when
`provisionedConcurrency` is truthy and strictly positive. -/
def aliasSegB (pc : Option Nat) : List Resource :=
  match pc with
  | none => []
  | some n => if 0 < n then [Resource.lambdaAlias "live" n] else []

/-- Plain environment variables segment (`addEnvironmentVariables`), guarded
by `variables && variables.length > 0`. -/
def varSeg (p : Props) : List Resource :=
  match varsOf p with
  | none => []
  | some l =>
      if 0 < l.length then
        l.flatMap (fun rec => rec.map (fun kv => Resource.envVar kv.1 kv.2))
      else []

/-- Secrets segment (`addSecrets`): per entry, one environment variable set
to the fetched secret value followed by one read grant, guarded by
`secrets && secrets.length > 0`. -/
def secretSeg (p : Props) : List Resource :=
  match secretsOf p with
  | none => []
  | some l =>
      if 0 < l.length then
        l.flatMap (fun s =>
          [Resource.envVar s.key (secretValueOf s.resource), Resource.secretGrant s.resource])
      else []

/-- Guard of the gateway domain-name binding: `domain` and
`regionalCertificateArn` truthy (the hosted zone id is not consulted). -/
def twoDomain (p : Props) : Bool :=
  truthyS p.domain && truthyS p.regionalCertificateArn

/-- Guard of the DNS-record creation: all three custom-domain fields truthy. -/
def allThreeDomain (p : Props) : Bool :=
  truthyS p.domain && truthyS p.regionalCertificateArn && truthyS p.hostedZoneId

/-- Gateway custom-domain binding: created when `domain` and
`regionalCertificateArn` are truthy (the hosted zone id is not consulted). -/
def domainSeg (p : Props) : List Resource :=
  if twoDomain p then
    [Resource.domainBinding (getS p.domain) (getS p.regionalCertificateArn)]
  else []

/-- Function URL segment: created when `url === true`. -/
def urlSeg (p : Props) : List Resource :=
  if urlOf p == some true then [Resource.fnUrl, Resource.output "LambdaFunctionUrl"]
  else []

/-- DNS records segment (`createDnsRecords`): hosted-zone import with the
zone name taken from the last dot-separated label of the domain, then an A
and an AAAA alias record; guarded by all three domain fields being truthy. -/
def dnsSeg (p : Props) : List Resource :=
  if allThreeDomain p then
    [Resource.hostedZoneImport (getS p.hostedZoneId) (zoneNameOf (getS p.domain)),
     Resource.aRecord (getS p.domain) (zoneNameOf (getS p.domain)),
     Resource.aaaaRecord (getS p.domain) (zoneNameOf (getS p.domain))]
  else []

/-- Keep-warm ping rule segment. -/
def pingSeg (pre : String) (p : Props) : List Resource :=
  if truthyB (keepWarmOf p) then [Resource.pingRule (pre ++ "-pinger")] else []

/-- Resource trace of the first `FunctionsConstruct` copy, in constructor
order: function, alias, variables, secrets, domain binding, API gateway and
its output, function URL, DNS records, ping rule, function-name output. -/
def functionsConstructA (p : Props) : List Resource :=
  let pre := resourceIdPrefixA p.application p.service p.environment
  fnSegA p ++ aliasSegA (pcOf p) ++ varSeg p ++ secretSeg p ++ domainSeg p ++
  [Resource.httpApi (pre ++ "-api"), Resource.output "ApiGatewayUrl"] ++
  urlSeg p ++ dnsSeg p ++ pingSeg pre p ++ [Resource.output "LambdaFunction"]

/-! ## FunctionsConstruct, second copy (`lib/functions.ts` lines 407-784) -/

/-- Function-creation segment of the second copy: like the first copy but a
dedicated log group is declared before the function. -/
def fnSegB (p : Props) : List Resource :=
  let pre := resourceIdPrefixB p.application p.service p.environment
  if truthyS (dockerFileOf p) then
    [Resource.logGroup ("/aws/lambda/" ++ pre ++ "-container-function"),
     Resource.containerFn (pre ++ "-container-function") (effectiveArch (archOf p)),
     Resource.envVar "NODE_OPTIONS" "--enable-source-maps",
     Resource.envVar "NITRO_PRESET" "aws-lambda"] ++
    (if truthyS p.accessTokenSecretArn then
      [Resource.rolePolicy ["ecr:GetAuthorizationToken"],
       Resource.rolePolicy ["ecr:BatchCheckLayerAvailability", "ecr:GetDownloadUrlForLayer",
         "ecr:BatchGetImage", "ecr:DescribeImages", "ecr:DescribeRepositories"]]
     else [])
  else
    [Resource.logGroup ("/aws/lambda/" ++ pre ++ "-function"),
     Resource.zipFn (pre ++ "-function") (effectiveRuntime (runtimeOf p)) (effectiveArch (archOf p)),
     Resource.envVar "NODE_OPTIONS" "--enable-source-maps",
     Resource.envVar "NITRO_PRESET" "aws-lambda"]

/-- Resource trace of the second `FunctionsConstruct` copy, in constructor
order; it differs from the first copy in the prefix computation, the log
groups and the alias guard. -/
def functionsConstructB (p : Props) : List Resource :=
  let pre := resourceIdPrefixB p.application p.service p.environment
  fnSegB p ++ aliasSegB (pcOf p) ++ varSeg p ++ secretSeg p ++ domainSeg p ++
  [Resource.httpApi (pre ++ "-api"), Resource.output "ApiGatewayUrl"] ++
  urlSeg p ++ dnsSeg p ++ pingSeg pre p ++ [Resource.output "LambdaFunction"]

/-! ## FunctionsConstruct variant of `part_001` -/

/-- Parameter-backed environment variables of `part_001`: per entry an
environment variable and a parameter read grant, then a single aggregate
role-policy statement for the whole list. -/
def envParamSeg (p : Props) : List Resource :=
  match p.environmentVariables with
  | none => []
  | some l =>
      if 0 < l.length then
        l.flatMap (fun v =>
          [Resource.envVar v.key (paramValueOf v.resource), Resource.paramGrant v.resource]) ++
        [Resource.rolePolicy ["ssm:GetParameter", "ssm:GetParameters"]]
      else []

/-- Resource trace of the `part_001` construct variant: zip function (with
`NODE_OPTIONS` only), alias on any defined provisioned concurrency,
parameter-backed environment variables, function URL unless `url === false`,
and — only when all three domain fields are truthy — a REST API gateway,
hosted-zone import, domain binding, A and AAAA records with their output. -/
def functionsConstructP1 (p : Props) : List Resource :=
  let pre := resourceIdPrefixA p.application p.service p.environment
  [Resource.zipFn (pre ++ "-Function") (effectiveRuntime (runtimeOf p)) (effectiveArch (archOf p)),
   Resource.envVar "NODE_OPTIONS" "--enable-source-maps"] ++
  aliasSegA (pcOf p) ++ envParamSeg p ++
  (if urlOf p != some false then [Resource.fnUrl, Resource.output "LambdaUrl"] else []) ++
  (if allThreeDomain p then
    [Resource.restApi (pre ++ "-API"),
     Resource.hostedZoneImport (getS p.hostedZoneId) (zoneNameOf (getS p.domain)),
     Resource.domainBinding (getS p.domain) (getS p.regionalCertificateArn),
     Resource.aRecord (getS p.domain) (zoneNameOf (getS p.domain)),
     Resource.aaaaRecord (getS p.domain) (zoneNameOf (getS p.domain)),
     Resource.output "ApiGatewayUrl"]
   else []) ++
  [Resource.output "Lambda"]

/-! ## PipelineConstruct (`part_002`) -/

/-- Github source coordinates complete:
`sourceProps?.owner`, `repo` and `branchOrRef` all truthy. -/
def sourceComplete (p : Props) : Bool :=
  truthyS (p.sourceProps.bind (·.owner)) &&
  truthyS (p.sourceProps.bind (·.repo)) &&
  truthyS (p.sourceProps.bind (·.branchOrRef))

/-- Build settings complete: `buildProps?.runtime`, `runtime_version`,
`installcmd` and `buildcmd` all truthy. -/
def buildComplete (p : Props) : Bool :=
  truthyS (p.buildProps.bind (·.runtime)) &&
  truthyS (p.buildProps.bind (·.runtime_version)) &&
  truthyS (p.buildProps.bind (·.installcmd)) &&
  truthyS (p.buildProps.bind (·.buildcmd))

/-- Resource trace of `PipelineConstruct`: the container flow (artifact
bucket, ECR repository, docker build and deploy projects, docker pipeline)
when `dockerFile` is truthy, otherwise the zip flow (build project whose
buildspec resolves each missing `buildProps` field to a default, artifact
bucket, deploy project, pipeline); both end with the pipeline-name output. -/
def pipelineConstructTrace (p : Props) : List Resource :=
  let pre := resourceIdPrefixA p.application p.service p.environment
  (if truthyS (dockerFileOf p) then
    [Resource.bucket (pre ++ "-pipeline-artifacts"),
     Resource.ecrRepository (pre ++ "-repo"),
     Resource.codeBuildProject (pre ++ "-lambda-docker-build"),
     Resource.codeBuildProject (pre ++ "-lambda-docker-deploy"),
     Resource.pipelineRes (pre ++ "-docker-pipeline")]
  else
    [Resource.zipBuildProject (pre ++ "-lambda-build")
       (orDefaultS (p.buildProps.bind (·.runtime)) "nodejs")
       (orDefaultS (p.buildProps.bind (·.runtime_version)) "20")
       (orDefaultS (p.buildProps.bind (·.installcmd)) "npm install")
       (orDefaultS (p.buildProps.bind (·.buildcmd)) "npm run build"),
     Resource.bucket (pre ++ "-pipeline-artifacts"),
     Resource.codeBuildProject (pre ++ "-lambda-deploy"),
     Resource.pipelineRes (pre ++ "-lambda-pipeline")]) ++
  [Resource.output "CodePipelineName"]

/-! ## Stack variants -/

/-- Mandatory-property validation shared by all stack constructors:
`env` must be present and the three identity strings truthy. -/
def stackPreOk (p : Props) : Bool :=
  p.env.isSome && !p.application.data.isEmpty &&
  !p.environment.data.isEmpty && !p.service.data.isEmpty

/-- Resource trace of `src/stack/FunctionStack.ts`: mandatory checks, an ECR
repository, the functions construct, and — only when an access token is
supplied — the source-coordinates check followed by the pipeline construct
and optionally the pipeline-events forwarder. -/
def functionStackMain (p : Props) : Except String (List Resource) :=
  if p.env.isNone then Except.error "Must provide AWS account and region."
  else if p.application.data.isEmpty || p.environment.data.isEmpty || p.service.data.isEmpty then
    Except.error "Mandatory stack properties missing."
  else
    let pre := resourceIdPrefixA p.application p.service p.environment
    let base := [Resource.ecrRepository (pre ++ "-repository")] ++ functionsConstructA p
    if truthyS p.accessTokenSecretArn then
      if !sourceComplete p then
        Except.error "Missing sourceProps: Github owner, repo and branch/ref required."
      else
        Except.ok (base ++ pipelineConstructTrace p ++
          (if truthyS p.eventTarget then [Resource.eventsForwarder] else []))
    else Except.ok base

/-- Resource trace of the `part_005` stack variant: no ECR repository, and
when the pipeline is enabled it validates `buildProps` (after the
source-coordinates check and regardless of the zip/container flow) before
declaring the pipeline construct. -/
def functionStackV5 (p : Props) : Except String (List Resource) :=
  if p.env.isNone then Except.error "Must provide AWS account and region."
  else if p.application.data.isEmpty || p.environment.data.isEmpty || p.service.data.isEmpty then
    Except.error "Mandatory stack properties missing."
  else
    let base := functionsConstructA p
    if truthyS p.accessTokenSecretArn then
      if !sourceComplete p then
        Except.error "Missing sourceProps: Github owner, repo and branch/ref required."
      else if !buildComplete p then
        Except.error "Missing buildProps: runtime, runtime_version, installcmd, buildcmd and outputdir required when pipeline is enabled."
      else Except.ok (base ++ pipelineConstructTrace p)
    else Except.ok base

/-- Success test on a stack result. -/
def isOkE (r : Except String (List Resource)) : Bool :=
  match r with
  | Except.ok _ => true
  | Except.error _ => false

/-- Resources of a stack result (empty when the constructor threw). -/
def resOfE (r : Except String (List Resource)) : List Resource :=
  match r with
  | Except.ok rs => rs
  | Except.error _ => []

/-! ## Entry-point runtime/architecture mapping (`part_000`) -/

/-- Model of `mapRuntime`: a CDK `Runtime` object passes through; the string
`provided` and strings starting with `nodejs` containing `20` or `18` map to
constants; any other string yields a logged warning (first component `true`)
and `undefined`.  An absent value maps silently to `undefined`. -/
def mapRuntime : Option (Sum RuntimeV String) → Bool × Option RuntimeV
  | none => (false, none)
  | some (Sum.inl r) => (false, some r)
  | some (Sum.inr s0) =>
      if s0.data.isEmpty then (false, none)
      else
        let s := jsToLower s0
        if s = "provided" then (false, some RuntimeV.PROVIDED_AL2023)
        else if jsStartsWith s "nodejs" && jsIncludes s "20" then (false, some RuntimeV.NODEJS_20_X)
        else if jsStartsWith s "nodejs" && jsIncludes s "18" then (false, some RuntimeV.NODEJS_18_X)
        else (true, none)

/-- Model of `mapArch`: `arm`/`arm64` and `x86`/`x86_64`/`x64` map to
constants; any other string yields a logged warning and `undefined`. -/
def mapArch : Option (Sum ArchV String) → Bool × Option ArchV
  | none => (false, none)
  | some (Sum.inl a) => (false, some a)
  | some (Sum.inr s0) =>
      if s0.data.isEmpty then (false, none)
      else
        let s := jsToLower s0
        if s = "arm" || s = "arm64" then (false, some ArchV.ARM_64)
        else if s = "x86" || s = "x86_64" || s = "x64" then (false, some ArchV.X86_64)
        else (true, none)

/-- Model of the metadata merge in `part_000`: the raw `functionProps` object
is spread first and `{ runtime: mappedRuntime }` is spread on top only when
the mapped value is truthy, so an unmapped raw string stays in place. -/
def mergedRuntime (raw : Option String) : Option (Sum RuntimeV String) :=
  match (mapRuntime (raw.map Sum.inr)).2 with
  | some r => some (Sum.inl r)
  | none => raw.map Sum.inr

/-- Metadata merge for the architecture, analogous to `mergedRuntime`. -/
def mergedArch (raw : Option String) : Option (Sum ArchV String) :=
  match (mapArch (raw.map Sum.inr)).2 with
  | some a => some (Sum.inl a)
  | none => raw.map Sum.inr

/-! ## Trace observers and concrete claim configurations -/

/-- C2 counterexample configuration: domain and certificate set, hosted zone
absent. -/
def c2props : Props :=
  { domain := some "api.example.com", regionalCertificateArn := some "arn:cert" }

/-- C4 input configuration: a subdomain with all three domain fields set. -/
def c4props : Props :=
  { domain := some "api.example.com", regionalCertificateArn := some "arn:cert",
    hostedZoneId := some "Z0AB" }

/-- C5 counterexample input: a 50-character application identifier. -/
def c5app : String := "AAAAAAAAAAAAAAAAAAAAAAAAAAAAAAAAAAAAAAAAAAAAAAAAAA"

/-- The combined strip (leading then trailing) on character lists. -/
def stripList (l : List Char) : List Char := dropTrailSlash (dropLeadSlash l)

/-- Zip-flow CodeBuild project test. -/
def isZipBuildR : Resource → Bool
  | Resource.zipBuildProject _ _ _ _ _ => true
  | _ => false

/-- C3 witness configuration: complete pipeline configuration. -/
def c3props : Props :=
  { env := some ⟨"123456789012", "us-east-1"⟩, application := "app", service := "svc",
    environment := "dev", accessTokenSecretArn := some "arn:token",
    sourceProps := some ⟨some "owner", some "repo", some "main"⟩,
    buildProps := some ⟨some "nodejs", some "20", some "npm ci", some "npm run build"⟩ }

/-- C3 witness configuration without a token. -/
def c3propsNoTok : Props :=
  { env := some ⟨"123456789012", "us-east-1"⟩, application := "app", service := "svc",
    environment := "dev" }

/-- C6 counterexample configuration: pipeline enabled, zip flow, no
`buildProps` at all. -/
def c6props : Props :=
  { env := some ⟨"123456789012", "us-east-1"⟩, application := "app", service := "svc",
    environment := "dev", accessTokenSecretArn := some "arn:token",
    sourceProps := some ⟨some "owner", some "repo", some "main"⟩ }

/-- C6 witness configuration: pipeline enabled with complete build settings. -/
def c6propsFull : Props :=
  { env := some ⟨"123456789012", "us-east-1"⟩, application := "app", service := "svc",
    environment := "dev", accessTokenSecretArn := some "arn:token",
    sourceProps := some ⟨some "owner", some "repo", some "main"⟩,
    buildProps := some ⟨some "nodejs", some "20", some "npm ci", some "npm run build"⟩ }

/-- Secret read grants recorded in a trace, in order. -/
def secretGrantsOf (rs : List Resource) : List String :=
  rs.filterMap (fun r => match r with
    | Resource.secretGrant a => some a
    | _ => none)

/-- Parameter read grants recorded in a trace, in order. -/
def paramGrantsOf (rs : List Resource) : List String :=
  rs.filterMap (fun r => match r with
    | Resource.paramGrant a => some a
    | _ => none)

/-- Environment-variable assignment events recorded in a trace, in order. -/
def envEventsOf (rs : List Resource) : List (String × String) :=
  rs.filterMap (fun r => match r with
    | Resource.envVar k v => some (k, v)
    | _ => none)

/-- Final value of an environment variable after a sequence of assignment
events: the last event with the given key wins. -/
def lastLookup : List (String × String) → String → Option String
  | [], _ => none
  | kv :: rest, k =>
      match lastLookup rest k with
      | some v => some v
      | none => if kv.1 = k then some kv.2 else none

/-- Environment pairs set at function creation. -/
def baseEnvPairs : List (String × String) :=
  [("NODE_OPTIONS", "--enable-source-maps"), ("NITRO_PRESET", "aws-lambda")]

/-- Environment pairs contributed by the plain `variables` list. -/
def varPairsOf (p : Props) : List (String × String) :=
  match varsOf p with
  | none => []
  | some l => l.flatMap (fun rec => rec)

/-- Environment pairs contributed by the `secrets` list. -/
def secretPairsOf (p : Props) : List (String × String) :=
  match secretsOf p with
  | none => []
  | some l => l.map (fun s => (s.key, secretValueOf s.resource))

/-- C7 witness configuration: two distinct secret references. -/
def c7props : Props :=
  { functionProps := some { secrets := some [⟨"K1", "arn:s1"⟩, ⟨"K2", "arn:s2"⟩] } }

/-! ## Counting and filtering helpers -/

/-- Number of resources in a trace satisfying a predicate. -/
def countR (f : Resource → Bool) (rs : List Resource) : Nat := (rs.filter f).length

/-- Compute-function test (zip or container Lambda function). -/
def isComputeR : Resource → Bool
  | Resource.containerFn _ _ => true
  | Resource.zipFn _ _ _ => true
  | _ => false

/-- Container-image function test. -/
def isContainerR : Resource → Bool
  | Resource.containerFn _ _ => true
  | _ => false

/-- Zip-package function test. -/
def isZipR : Resource → Bool
  | Resource.zipFn _ _ _ => true
  | _ => false

/-- Gateway domain-binding test. -/
def isDomainBindingR : Resource → Bool
  | Resource.domainBinding _ _ => true
  | _ => false

/-- IPv4 alias record test. -/
def isARecordR : Resource → Bool
  | Resource.aRecord _ _ => true
  | _ => false

/-- IPv6 alias record test. -/
def isAaaaRecordR : Resource → Bool
  | Resource.aaaaRecord _ _ => true
  | _ => false

/-- Lambda alias test. -/
def isAliasR : Resource → Bool
  | Resource.lambdaAlias _ _ => true
  | _ => false

/-- CodePipeline test. -/
def isPipelineR : Resource → Bool
  | Resource.pipelineRes _ => true
  | _ => false

theorem countR_append (f : Resource → Bool) (a b : List Resource) :
    countR f (a ++ b) = countR f a + countR f b := by
  simp [countR]

theorem filter_flatMap_nil {α : Type} (f : Resource → Bool) (g : α → List Resource)
    (l : List α) (h : ∀ a, (g a).filter f = []) : (l.flatMap g).filter f = [] := by
  induction l with
  | nil => rfl
  | cons a t ih => simp [List.flatMap_cons, List.filter_append, h a, ih]

theorem filter_aliasSegA_nil (f : Resource → Bool) (pc : Option Nat)
    (h : ∀ a n, f (Resource.lambdaAlias a n) = false) : (aliasSegA pc).filter f = [] := by
  cases pc <;> simp [aliasSegA, h]

theorem filter_aliasSegB_nil (f : Resource → Bool) (pc : Option Nat)
    (h : ∀ a n, f (Resource.lambdaAlias a n) = false) : (aliasSegB pc).filter f = [] := by
  cases pc with
  | none => rfl
  | some n => by_cases hn : 0 < n <;> simp [aliasSegB, hn, h]

theorem filter_varSeg_nil (f : Resource → Bool) (p : Props)
    (h : ∀ k v, f (Resource.envVar k v) = false) : (varSeg p).filter f = [] := by
  cases hv : varsOf p with
  | none => simp [varSeg, hv]
  | some l =>
      by_cases hl : 0 < l.length
      · simp only [varSeg, hv, if_pos hl]
        exact filter_flatMap_nil f _ l (fun rec => by
          induction rec with
          | nil => rfl
          | cons kv t ih => simp [h, ih])
      · simp [varSeg, hv, hl]

theorem filter_secretSeg_nil (f : Resource → Bool) (p : Props)
    (h1 : ∀ k v, f (Resource.envVar k v) = false)
    (h2 : ∀ a, f (Resource.secretGrant a) = false) : (secretSeg p).filter f = [] := by
  cases hs : secretsOf p with
  | none => simp [secretSeg, hs]
  | some l =>
      by_cases hl : 0 < l.length
      · simp only [secretSeg, hs, if_pos hl]
        exact filter_flatMap_nil f _ l (fun s => by simp [h1, h2])
      · simp [secretSeg, hs, hl]

theorem filter_domainSeg_nil (f : Resource → Bool) (p : Props)
    (h : ∀ d c, f (Resource.domainBinding d c) = false) : (domainSeg p).filter f = [] := by
  by_cases hd : twoDomain p <;> simp [domainSeg, hd, h]

theorem filter_urlSeg_nil (f : Resource → Bool) (p : Props)
    (h1 : f Resource.fnUrl = false)
    (h2 : ∀ n, f (Resource.output n) = false) : (urlSeg p).filter f = [] := by
  by_cases hu : urlOf p == some true <;> simp [urlSeg, hu, h1, h2]

theorem filter_dnsSeg_nil (f : Resource → Bool) (p : Props)
    (h1 : ∀ a b, f (Resource.hostedZoneImport a b) = false)
    (h2 : ∀ a b, f (Resource.aRecord a b) = false)
    (h3 : ∀ a b, f (Resource.aaaaRecord a b) = false) : (dnsSeg p).filter f = [] := by
  by_cases hd : allThreeDomain p <;> simp [dnsSeg, hd, h1, h2, h3]

theorem filter_pingSeg_nil (f : Resource → Bool) (pre : String) (p : Props)
    (h : ∀ n, f (Resource.pingRule n) = false) : (pingSeg pre p).filter f = [] := by
  by_cases hk : truthyB (keepWarmOf p) <;> simp [pingSeg, hk, h]

theorem filter_envParamSeg_nil (f : Resource → Bool) (p : Props)
    (h1 : ∀ k v, f (Resource.envVar k v) = false)
    (h2 : ∀ a, f (Resource.paramGrant a) = false)
    (h3 : ∀ a, f (Resource.rolePolicy a) = false) : (envParamSeg p).filter f = [] := by
  cases he : p.environmentVariables with
  | none => simp [envParamSeg, he]
  | some l =>
      by_cases hl : 0 < l.length
      · simp only [envParamSeg, he, if_pos hl, List.filter_append]
        rw [filter_flatMap_nil f _ l (fun v => by simp [h1, h2])]
        simp [h3]
      · simp [envParamSeg, he, hl]

theorem filter_fnSegA_nil (f : Resource → Bool) (p : Props)
    (h1 : ∀ n a, f (Resource.containerFn n a) = false)
    (h2 : ∀ n r a, f (Resource.zipFn n r a) = false)
    (h3 : ∀ k v, f (Resource.envVar k v) = false)
    (h4 : ∀ a, f (Resource.rolePolicy a) = false) : (fnSegA p).filter f = [] := by
  by_cases hd : truthyS (dockerFileOf p) <;>
    by_cases ht : truthyS p.accessTokenSecretArn <;>
      simp [fnSegA, hd, ht, h1, h2, h3, h4]

theorem filter_fnSegB_nil (f : Resource → Bool) (p : Props)
    (h1 : ∀ n a, f (Resource.containerFn n a) = false)
    (h2 : ∀ n r a, f (Resource.zipFn n r a) = false)
    (h3 : ∀ k v, f (Resource.envVar k v) = false)
    (h4 : ∀ a, f (Resource.rolePolicy a) = false)
    (h5 : ∀ n, f (Resource.logGroup n) = false) : (fnSegB p).filter f = [] := by
  by_cases hd : truthyS (dockerFileOf p) <;>
    by_cases ht : truthyS p.accessTokenSecretArn <;>
      simp [fnSegB, hd, ht, h1, h2, h3, h4, h5]

/-! ## Claims -/

/-- Helper: a predicate that ignores every constructor outside the
function-creation segment counts the same on the whole first-copy construct
trace as on its function segment. -/
theorem countR_constructA_eq_fnSegA (f : Resource → Bool) (p : Props)
    (halias : ∀ a n, f (Resource.lambdaAlias a n) = false)
    (henv : ∀ k v, f (Resource.envVar k v) = false)
    (hgrant : ∀ a, f (Resource.secretGrant a) = false)
    (hdom : ∀ d c, f (Resource.domainBinding d c) = false)
    (hurl : f Resource.fnUrl = false)
    (hout : ∀ n, f (Resource.output n) = false)
    (hzone : ∀ a b, f (Resource.hostedZoneImport a b) = false)
    (ha4 : ∀ a b, f (Resource.aRecord a b) = false)
    (ha6 : ∀ a b, f (Resource.aaaaRecord a b) = false)
    (hping : ∀ n, f (Resource.pingRule n) = false)
    (hhttp : ∀ n, f (Resource.httpApi n) = false) :
    countR f (functionsConstructA p) = countR f (fnSegA p) := by
  have e1 : (aliasSegA (pcOf p)).filter f = [] := filter_aliasSegA_nil f _ halias
  have e2 : (varSeg p).filter f = [] := filter_varSeg_nil f p henv
  have e3 : (secretSeg p).filter f = [] := filter_secretSeg_nil f p henv hgrant
  have e4 : (domainSeg p).filter f = [] := filter_domainSeg_nil f p hdom
  have e5 : (urlSeg p).filter f = [] := filter_urlSeg_nil f p hurl hout
  have e6 : (dnsSeg p).filter f = [] := filter_dnsSeg_nil f p hzone ha4 ha6
  have e7 : ∀ pre, (pingSeg pre p).filter f = [] := fun pre => filter_pingSeg_nil f pre p hping
  simp [functionsConstructA, countR, List.filter_append, e1, e2, e3, e4, e5, e6, e7,
    hout, hhttp]

/-- Helper: the analogue for the second copy (its trace additionally contains
log groups, excluded by `hlog`). -/
theorem countR_constructB_eq_fnSegB (f : Resource → Bool) (p : Props)
    (halias : ∀ a n, f (Resource.lambdaAlias a n) = false)
    (henv : ∀ k v, f (Resource.envVar k v) = false)
    (hgrant : ∀ a, f (Resource.secretGrant a) = false)
    (hdom : ∀ d c, f (Resource.domainBinding d c) = false)
    (hurl : f Resource.fnUrl = false)
    (hout : ∀ n, f (Resource.output n) = false)
    (hzone : ∀ a b, f (Resource.hostedZoneImport a b) = false)
    (ha4 : ∀ a b, f (Resource.aRecord a b) = false)
    (ha6 : ∀ a b, f (Resource.aaaaRecord a b) = false)
    (hping : ∀ n, f (Resource.pingRule n) = false)
    (hhttp : ∀ n, f (Resource.httpApi n) = false) :
    countR f (functionsConstructB p) = countR f (fnSegB p) := by
  have e1 : (aliasSegB (pcOf p)).filter f = [] := filter_aliasSegB_nil f _ halias
  have e2 : (varSeg p).filter f = [] := filter_varSeg_nil f p henv
  have e3 : (secretSeg p).filter f = [] := filter_secretSeg_nil f p henv hgrant
  have e4 : (domainSeg p).filter f = [] := filter_domainSeg_nil f p hdom
  have e5 : (urlSeg p).filter f = [] := filter_urlSeg_nil f p hurl hout
  have e6 : (dnsSeg p).filter f = [] := filter_dnsSeg_nil f p hzone ha4 ha6
  have e7 : ∀ pre, (pingSeg pre p).filter f = [] := fun pre => filter_pingSeg_nil f pre p hping
  simp [functionsConstructB, countR, List.filter_append, e1, e2, e3, e4, e5, e6, e7,
    hout, hhttp]

/-- C1: for every configuration, each `FunctionsConstruct` copy declares
exactly one compute (Lambda) function resource, and it is a container-image
function exactly when `functionProps.dockerFile` is specified (present and
non-empty, i.e. truthy), otherwise a zip-package function. -/
theorem c1_exactly_one_compute_function (p : Props) :
    countR isComputeR (functionsConstructA p) = 1 ∧
    countR isComputeR (functionsConstructB p) = 1 ∧
    (countR isContainerR (functionsConstructA p) = if truthyS (dockerFileOf p) then 1 else 0) ∧
    (countR isZipR (functionsConstructA p) = if truthyS (dockerFileOf p) then 0 else 1) ∧
    (countR isContainerR (functionsConstructB p) = if truthyS (dockerFileOf p) then 1 else 0) ∧
    (countR isZipR (functionsConstructB p) = if truthyS (dockerFileOf p) then 0 else 1) := by
  have ra : ∀ f : Resource → Bool,
      (∀ a n, f (Resource.lambdaAlias a n) = false) →
      (∀ k v, f (Resource.envVar k v) = false) →
      (∀ a, f (Resource.secretGrant a) = false) →
      (∀ d c, f (Resource.domainBinding d c) = false) →
      (f Resource.fnUrl = false) →
      (∀ n, f (Resource.output n) = false) →
      (∀ a b, f (Resource.hostedZoneImport a b) = false) →
      (∀ a b, f (Resource.aRecord a b) = false) →
      (∀ a b, f (Resource.aaaaRecord a b) = false) →
      (∀ n, f (Resource.pingRule n) = false) →
      (∀ n, f (Resource.httpApi n) = false) →
      countR f (functionsConstructA p) = countR f (fnSegA p) ∧
      countR f (functionsConstructB p) = countR f (fnSegB p) :=
    fun f h1 h2 h3 h4 h5 h6 h7 h8 h9 h10 h11 =>
      ⟨countR_constructA_eq_fnSegA f p h1 h2 h3 h4 h5 h6 h7 h8 h9 h10 h11,
       countR_constructB_eq_fnSegB f p h1 h2 h3 h4 h5 h6 h7 h8 h9 h10 h11⟩
  obtain ⟨hca, hcb⟩ := ra isComputeR (fun _ _ => rfl) (fun _ _ => rfl) (fun _ => rfl)
    (fun _ _ => rfl) rfl (fun _ => rfl) (fun _ _ => rfl) (fun _ _ => rfl) (fun _ _ => rfl)
    (fun _ => rfl) (fun _ => rfl)
  obtain ⟨hta, htb⟩ := ra isContainerR (fun _ _ => rfl) (fun _ _ => rfl) (fun _ => rfl)
    (fun _ _ => rfl) rfl (fun _ => rfl) (fun _ _ => rfl) (fun _ _ => rfl) (fun _ _ => rfl)
    (fun _ => rfl) (fun _ => rfl)
  obtain ⟨hza, hzb⟩ := ra isZipR (fun _ _ => rfl) (fun _ _ => rfl) (fun _ => rfl)
    (fun _ _ => rfl) rfl (fun _ => rfl) (fun _ _ => rfl) (fun _ _ => rfl) (fun _ _ => rfl)
    (fun _ => rfl) (fun _ => rfl)
  rw [hca, hcb, hta, htb, hza, hzb]
  by_cases hd : truthyS (dockerFileOf p) <;>
    by_cases ht : truthyS p.accessTokenSecretArn <;>
      simp [fnSegA, fnSegB, countR, hd, ht, isComputeR, isContainerR, isZipR]

/-- Helper: a predicate that ignores every constructor outside the domain
and DNS segments counts on the whole first-copy trace as on those two
segments. -/
theorem countR_constructA_eq_domdns (f : Resource → Bool) (p : Props)
    (hc : ∀ n a, f (Resource.containerFn n a) = false)
    (hz : ∀ n r a, f (Resource.zipFn n r a) = false)
    (hrole : ∀ a, f (Resource.rolePolicy a) = false)
    (halias : ∀ a n, f (Resource.lambdaAlias a n) = false)
    (henv : ∀ k v, f (Resource.envVar k v) = false)
    (hgrant : ∀ a, f (Resource.secretGrant a) = false)
    (hurl : f Resource.fnUrl = false)
    (hout : ∀ n, f (Resource.output n) = false)
    (hping : ∀ n, f (Resource.pingRule n) = false)
    (hhttp : ∀ n, f (Resource.httpApi n) = false) :
    countR f (functionsConstructA p) = countR f (domainSeg p) + countR f (dnsSeg p) := by
  have e0 : (fnSegA p).filter f = [] := filter_fnSegA_nil f p hc hz henv hrole
  have e1 : (aliasSegA (pcOf p)).filter f = [] := filter_aliasSegA_nil f _ halias
  have e2 : (varSeg p).filter f = [] := filter_varSeg_nil f p henv
  have e3 : (secretSeg p).filter f = [] := filter_secretSeg_nil f p henv hgrant
  have e5 : (urlSeg p).filter f = [] := filter_urlSeg_nil f p hurl hout
  have e7 : ∀ pre, (pingSeg pre p).filter f = [] := fun pre => filter_pingSeg_nil f pre p hping
  simp [functionsConstructA, countR, List.filter_append, e0, e1, e2, e3, e5, e7, hout, hhttp]

/-- Helper: the analogue for the second copy. -/
theorem countR_constructB_eq_domdns (f : Resource → Bool) (p : Props)
    (hc : ∀ n a, f (Resource.containerFn n a) = false)
    (hz : ∀ n r a, f (Resource.zipFn n r a) = false)
    (hlog : ∀ n, f (Resource.logGroup n) = false)
    (hrole : ∀ a, f (Resource.rolePolicy a) = false)
    (halias : ∀ a n, f (Resource.lambdaAlias a n) = false)
    (henv : ∀ k v, f (Resource.envVar k v) = false)
    (hgrant : ∀ a, f (Resource.secretGrant a) = false)
    (hurl : f Resource.fnUrl = false)
    (hout : ∀ n, f (Resource.output n) = false)
    (hping : ∀ n, f (Resource.pingRule n) = false)
    (hhttp : ∀ n, f (Resource.httpApi n) = false) :
    countR f (functionsConstructB p) = countR f (domainSeg p) + countR f (dnsSeg p) := by
  have e0 : (fnSegB p).filter f = [] := filter_fnSegB_nil f p hc hz henv hrole hlog
  have e1 : (aliasSegB (pcOf p)).filter f = [] := filter_aliasSegB_nil f _ halias
  have e2 : (varSeg p).filter f = [] := filter_varSeg_nil f p henv
  have e3 : (secretSeg p).filter f = [] := filter_secretSeg_nil f p henv hgrant
  have e5 : (urlSeg p).filter f = [] := filter_urlSeg_nil f p hurl hout
  have e7 : ∀ pre, (pingSeg pre p).filter f = [] := fun pre => filter_pingSeg_nil f pre p hping
  simp [functionsConstructB, countR, List.filter_append, e0, e1, e2, e3, e5, e7, hout, hhttp]

/-- Helper: domain-resource counts on the `part_001` variant trace reduce to
its guarded DNS block. -/
theorem countR_constructP1_domain (f : Resource → Bool) (p : Props)
    (hz : ∀ n r a, f (Resource.zipFn n r a) = false)
    (hrole : ∀ a, f (Resource.rolePolicy a) = false)
    (halias : ∀ a n, f (Resource.lambdaAlias a n) = false)
    (henv : ∀ k v, f (Resource.envVar k v) = false)
    (hpar : ∀ a, f (Resource.paramGrant a) = false)
    (hurl : f Resource.fnUrl = false)
    (hout : ∀ n, f (Resource.output n) = false)
    (hrest : ∀ n, f (Resource.restApi n) = false) :
    countR f (functionsConstructP1 p) =
      (if allThreeDomain p then
        countR f [Resource.hostedZoneImport (getS p.hostedZoneId) (zoneNameOf (getS p.domain)),
          Resource.domainBinding (getS p.domain) (getS p.regionalCertificateArn),
          Resource.aRecord (getS p.domain) (zoneNameOf (getS p.domain)),
          Resource.aaaaRecord (getS p.domain) (zoneNameOf (getS p.domain))]
       else 0) := by
  have e1 : (aliasSegA (pcOf p)).filter f = [] := filter_aliasSegA_nil f _ halias
  have e2 : (envParamSeg p).filter f = [] := filter_envParamSeg_nil f p henv hpar hrole
  have c1 : countR f (aliasSegA (pcOf p)) = 0 := by rw [countR, e1]; rfl
  have c2 : countR f (envParamSeg p) = 0 := by rw [countR, e2]; rfl
  simp only [functionsConstructP1, countR_append, c1, c2]
  by_cases hu : (urlOf p != some false) = true <;>
    by_cases hd : allThreeDomain p = true <;>
      simp [countR, hu, hd, List.filter_cons, hz, henv, hurl, hout, hrest]

/-- C2 counterexample: with domain and certificate truthy but no hosted zone
id, both `lib/functions.ts` copies still create the gateway domain-name
binding, contradicting the claim that the binding requires all three fields
and that partial configuration creates no domain-related resource. -/
theorem c2_domain_binding_counterexample :
    countR isDomainBindingR (functionsConstructA c2props) = 1 ∧
    countR isDomainBindingR (functionsConstructB c2props) = 1 ∧
    c2props.hostedZoneId = none ∧
    countR isARecordR (functionsConstructA c2props) = 0 := by
  exact ⟨rfl, rfl, rfl, rfl⟩

/-- C2 amended: in both `lib/functions.ts` copies the gateway domain-name
binding is created iff `domain` and `regionalCertificateArn` are truthy
(the hosted zone id is not consulted), while the A and AAAA records require
all三 three fields; in the `part_001` variant the binding and both records
all require all three fields; partial configuration never raises an error
(the traces are total functions). -/
theorem c2_domain_resources_iff (p : Props) :
    (countR isDomainBindingR (functionsConstructA p) = if twoDomain p then 1 else 0) ∧
    (countR isDomainBindingR (functionsConstructB p) = if twoDomain p then 1 else 0) ∧
    (countR isARecordR (functionsConstructA p) = if allThreeDomain p then 1 else 0) ∧
    (countR isAaaaRecordR (functionsConstructA p) = if allThreeDomain p then 1 else 0) ∧
    (countR isARecordR (functionsConstructB p) = if allThreeDomain p then 1 else 0) ∧
    (countR isAaaaRecordR (functionsConstructB p) = if allThreeDomain p then 1 else 0) ∧
    (countR isDomainBindingR (functionsConstructP1 p) = if allThreeDomain p then 1 else 0) ∧
    (countR isARecordR (functionsConstructP1 p) = if allThreeDomain p then 1 else 0) ∧
    (countR isAaaaRecordR (functionsConstructP1 p) = if allThreeDomain p then 1 else 0) := by
  have rab : ∀ f : Resource → Bool,
      (∀ n a, f (Resource.containerFn n a) = false) →
      (∀ n r a, f (Resource.zipFn n r a) = false) →
      (∀ n, f (Resource.logGroup n) = false) →
      (∀ a, f (Resource.rolePolicy a) = false) →
      (∀ a n, f (Resource.lambdaAlias a n) = false) →
      (∀ k v, f (Resource.envVar k v) = false) →
      (∀ a, f (Resource.secretGrant a) = false) →
      (f Resource.fnUrl = false) →
      (∀ n, f (Resource.output n) = false) →
      (∀ n, f (Resource.pingRule n) = false) →
      (∀ n, f (Resource.httpApi n) = false) →
      countR f (functionsConstructA p) = countR f (domainSeg p) + countR f (dnsSeg p) ∧
      countR f (functionsConstructB p) = countR f (domainSeg p) + countR f (dnsSeg p) :=
    fun f h1 h2 h3 h4 h5 h6 h7 h8 h9 h10 h11 =>
      ⟨countR_constructA_eq_domdns f p h1 h2 h4 h5 h6 h7 h8 h9 h10 h11,
       countR_constructB_eq_domdns f p h1 h2 h3 h4 h5 h6 h7 h8 h9 h10 h11⟩
  obtain ⟨d1, d2⟩ := rab isDomainBindingR (fun _ _ => rfl) (fun _ _ _ => rfl) (fun _ => rfl)
    (fun _ => rfl) (fun _ _ => rfl) (fun _ _ => rfl) (fun _ => rfl) rfl (fun _ => rfl)
    (fun _ => rfl) (fun _ => rfl)
  obtain ⟨a1, a2⟩ := rab isARecordR (fun _ _ => rfl) (fun _ _ _ => rfl) (fun _ => rfl)
    (fun _ => rfl) (fun _ _ => rfl) (fun _ _ => rfl) (fun _ => rfl) rfl (fun _ => rfl)
    (fun _ => rfl) (fun _ => rfl)
  obtain ⟨b1, b2⟩ := rab isAaaaRecordR (fun _ _ => rfl) (fun _ _ _ => rfl) (fun _ => rfl)
    (fun _ => rfl) (fun _ _ => rfl) (fun _ _ => rfl) (fun _ => rfl) rfl (fun _ => rfl)
    (fun _ => rfl) (fun _ => rfl)
  have p1d := countR_constructP1_domain isDomainBindingR p (fun _ _ _ => rfl) (fun _ => rfl)
    (fun _ _ => rfl) (fun _ _ => rfl) (fun _ => rfl) rfl (fun _ => rfl) (fun _ => rfl)
  have p1a := countR_constructP1_domain isARecordR p (fun _ _ _ => rfl) (fun _ => rfl)
    (fun _ _ => rfl) (fun _ _ => rfl) (fun _ => rfl) rfl (fun _ => rfl) (fun _ => rfl)
  have p1b := countR_constructP1_domain isAaaaRecordR p (fun _ _ _ => rfl) (fun _ => rfl)
    (fun _ _ => rfl) (fun _ _ => rfl) (fun _ => rfl) rfl (fun _ => rfl) (fun _ => rfl)
  rw [d1, d2, a1, a2, b1, b2, p1d, p1a, p1b]
  by_cases h1 : twoDomain p = true <;>
    by_cases h2 : allThreeDomain p = true <;>
      first
      | (exfalso
         simp only [twoDomain, allThreeDomain, Bool.and_eq_true] at h1 h2
         exact h1 (And.intro h2.1.1 h2.1.2))
      | simp [domainSeg, dnsSeg, countR, h1, h2, isDomainBindingR, isARecordR, isAaaaRecordR]

/-- C4: the hosted-zone import uses only the last dot-separated label of the
domain as zone name ("com" for "api.example.com"), not the last two labels
("example.com") that the claim, the spec and the code's own "Support
subdomains" comment describe. -/
theorem c4_zone_name_bug :
    zoneNameOf "api.example.com" = "com" ∧
    specZoneName "api.example.com" = "example.com" ∧
    zoneNameOf "api.example.com" ≠ specZoneName "api.example.com" ∧
    dnsSeg c4props =
      [Resource.hostedZoneImport "Z0AB" "com",
       Resource.aRecord "api.example.com" "com",
       Resource.aaaaRecord "api.example.com" "com"] := by
  refine ⟨rfl, rfl, ?_, rfl⟩
  decide

/-- C9: the two `FunctionsConstruct` copies treat `provisionedConcurrency = 0`
differently: the alias resources of the first copy are exactly those of its
`!== undefined` guard (so the value `0` produces the version/alias pair),
the second copy requires a strictly positive value; for positive values both
declare exactly one alias named `live` carrying the requested count. -/
theorem c9_provisioned_concurrency_zero_mismatch (p : Props) :
    (functionsConstructA p).filter isAliasR = aliasSegA (pcOf p) ∧
    (functionsConstructB p).filter isAliasR = aliasSegB (pcOf p) ∧
    aliasSegA (some 0) = [Resource.lambdaAlias "live" 0] ∧
    aliasSegB (some 0) = [] ∧
    (∀ n : Nat, 0 < n →
      aliasSegA (some n) = [Resource.lambdaAlias "live" n] ∧
      aliasSegB (some n) = [Resource.lambdaAlias "live" n]) := by
  have hfA : (fnSegA p).filter isAliasR = [] :=
    filter_fnSegA_nil _ p (fun _ _ => rfl) (fun _ _ _ => rfl) (fun _ _ => rfl) (fun _ => rfl)
  have hfB : (fnSegB p).filter isAliasR = [] :=
    filter_fnSegB_nil _ p (fun _ _ => rfl) (fun _ _ _ => rfl) (fun _ _ => rfl) (fun _ => rfl)
      (fun _ => rfl)
  have hv : (varSeg p).filter isAliasR = [] := filter_varSeg_nil _ p (fun _ _ => rfl)
  have hs : (secretSeg p).filter isAliasR = [] :=
    filter_secretSeg_nil _ p (fun _ _ => rfl) (fun _ => rfl)
  have hd : (domainSeg p).filter isAliasR = [] := filter_domainSeg_nil _ p (fun _ _ => rfl)
  have hu : (urlSeg p).filter isAliasR = [] := filter_urlSeg_nil _ p rfl (fun _ => rfl)
  have hdns : (dnsSeg p).filter isAliasR = [] :=
    filter_dnsSeg_nil _ p (fun _ _ => rfl) (fun _ _ => rfl) (fun _ _ => rfl)
  have hping : ∀ pre, (pingSeg pre p).filter isAliasR = [] :=
    fun pre => filter_pingSeg_nil _ pre p (fun _ => rfl)
  have haA : (aliasSegA (pcOf p)).filter isAliasR = aliasSegA (pcOf p) := by
    cases pcOf p <;> simp [aliasSegA, isAliasR]
  have haB : (aliasSegB (pcOf p)).filter isAliasR = aliasSegB (pcOf p) := by
    cases hpc : pcOf p with
    | none => rfl
    | some n => by_cases hn : 0 < n <;> simp [aliasSegB, hn, isAliasR]
  refine ⟨?_, ?_, rfl, rfl, fun n hn => ⟨rfl, by simp [aliasSegB, hn]⟩⟩
  · simp [functionsConstructA, List.filter_append, hfA, hv, hs, hd, hu, hdns, hping, haA,
      isAliasR]
  · simp [functionsConstructB, List.filter_append, hfB, hv, hs, hd, hu, hdns, hping, haB,
      isAliasR]

/-- C9 witness: at `provisionedConcurrency = 2` the first copy produces the
single `live` alias, evaluated on a configuration instance. -/
theorem c9_provisioned_concurrency_zero_mismatch_witness :
    aliasSegA (some 2) = [Resource.lambdaAlias "live" 2] ∧
    aliasSegB (some 2) = [Resource.lambdaAlias "live" 2] :=
  (c9_provisioned_concurrency_zero_mismatch {}).2.2.2.2 2 (by decide)

/-- C5 counterexample: in the second copy the prefix for a long identity
triple is not the first-N-characters truncation of the concatenation for
either platform limit (23 or 42): each component is truncated to 7
characters first and the result is lower-cased. -/
theorem c5_prefix_counterexample :
    resourceIdPrefixB c5app "Svc" "Dev" = "aaaaaaa-svc-dev" ∧
    resourceIdPrefixB c5app "Svc" "Dev" ≠ jsSubstrTo (c5app ++ "-" ++ "Svc" ++ "-" ++ "Dev") 23 ∧
    resourceIdPrefixB c5app "Svc" "Dev" ≠ jsSubstrTo (c5app ++ "-" ++ "Svc" ++ "-" ++ "Dev") 42 ∧
    42 < (c5app ++ "-" ++ "Svc" ++ "-" ++ "Dev").data.length := by
  refine ⟨by decide, by decide, by decide, by decide⟩

/-- C5 amended: the first copy's prefix is exactly the first 42 characters of
the dash-joined concatenation (a true prefix of it, length at most 42); the
second copy's prefix has length at most 23 but depends only on the first 7
characters of each identity component (so it is not a truncation of the
concatenation); both computations are deterministic functions. -/
theorem c5_prefix_truncation (a s e : String) :
    resourceIdPrefixA a s e = jsSubstrTo (a ++ "-" ++ s ++ "-" ++ e) 42 ∧
    (resourceIdPrefixA a s e).data.length ≤ 42 ∧
    resourceIdPrefixA a s e ++ (⟨(a ++ "-" ++ s ++ "-" ++ e).data.drop 42⟩ : String) =
      a ++ "-" ++ s ++ "-" ++ e ∧
    (resourceIdPrefixB a s e).data.length ≤ 23 ∧
    (∀ a2 s2 e2 : String, a.data.take 7 = a2.data.take 7 → s.data.take 7 = s2.data.take 7 →
      e.data.take 7 = e2.data.take 7 →
      resourceIdPrefixB a s e = resourceIdPrefixB a2 s2 e2) := by
  refine ⟨rfl, ?_, ?_, ?_, ?_⟩
  · simp only [resourceIdPrefixA, jsSubstrTo, List.length_take]
    exact min_le_left _ _
  · exact congrArg String.mk (List.take_append_drop 42 (a ++ "-" ++ s ++ "-" ++ e).data)
  · simp only [resourceIdPrefixB, jsToLower, jsSubstrTo, List.length_map, List.length_take]
    exact min_le_left _ _
  · intro a2 s2 e2 h1 h2 h3
    simp only [resourceIdPrefixB, jsSubstrTo, h1, h2, h3]

/-- C5 witness: the amended theorem applied at concrete identifiers sharing
their first 7 characters. -/
theorem c5_prefix_truncation_witness :
    resourceIdPrefixB "AlphabetSoup" "Svc" "Dev" = resourceIdPrefixB "AlphabeXYZ" "Svc" "Dev" :=
  (c5_prefix_truncation "AlphabetSoup" "Svc" "Dev").2.2.2.2 "AlphabeXYZ" "Svc" "Dev" rfl rfl rfl

/-! ## C10 helper lemmas about slash stripping -/

theorem head?_dropLeadSlash_ne (l : List Char) : (dropLeadSlash l).head? ≠ some '/' := by
  induction l with
  | nil => simp [dropLeadSlash]
  | cons a t ih =>
      by_cases ha : a = '/'
      · simpa [dropLeadSlash, List.dropWhile_cons, ha] using ih
      · simp [dropLeadSlash, List.dropWhile_cons, ha]

theorem getLast?_dropTrailSlash_ne (l : List Char) : (dropTrailSlash l).getLast? ≠ some '/' := by
  rw [dropTrailSlash, List.getLast?_reverse]
  exact head?_dropLeadSlash_ne l.reverse

theorem head?_dropTrailSlash (l : List Char) (c : Char)
    (h : (dropTrailSlash l).head? = some c) : l.head? = some c := by
  have hp : dropTrailSlash l <+: l := List.rdropWhile_prefix (· = '/') l
  obtain ⟨t, ht⟩ := hp
  cases hd : dropTrailSlash l with
  | nil => rw [hd] at h; simp at h
  | cons x xs =>
      rw [hd] at h ht
      rw [← ht]
      simpa using h

theorem head?_stripList_ne (l : List Char) : (stripList l).head? ≠ some '/' := by
  intro h
  exact head?_dropLeadSlash_ne l (head?_dropTrailSlash _ _ h)

theorem getLast?_stripList_ne (l : List Char) : (stripList l).getLast? ≠ some '/' :=
  getLast?_dropTrailSlash_ne _

theorem dropLeadSlash_eq_self (m : List Char) (h : m.head? ≠ some '/') :
    dropLeadSlash m = m := by
  cases m with
  | nil => rfl
  | cons a t =>
      have ha : ¬(a = '/') := fun he => h (by simp [he])
      simp [dropLeadSlash, List.dropWhile_cons, ha]

theorem dropTrailSlash_eq_self (m : List Char) (h : m.getLast? ≠ some '/') :
    dropTrailSlash m = m := by
  have h2 : m.reverse.head? ≠ some '/' := by
    rw [← List.getLast?_reverse m.reverse, List.reverse_reverse]
    exact h
  show (dropLeadSlash m.reverse).reverse = m
  rw [dropLeadSlash_eq_self m.reverse h2, List.reverse_reverse]

theorem dropTrailSlash_idem (m : List Char) :
    dropTrailSlash (dropTrailSlash m) = dropTrailSlash m :=
  dropTrailSlash_eq_self _ (getLast?_dropTrailSlash_ne m)

theorem stripList_idem (l : List Char) : stripList (stripList l) = stripList l := by
  rw [stripList, dropLeadSlash_eq_self (stripList l) (head?_stripList_ne l)]
  exact dropTrailSlash_idem _

theorem stripSlashes_data (s : String) : (stripSlashes s).data = stripList s.data := rfl

/-- C10 counterexample: the filtering sanitizer of the second copy is not
idempotent: on `a/!/b` removing the disallowed `!` makes two slash runs
adjacent, and only a second application collapses them. -/
theorem c10_sanitizer_counterexample :
    sanitizePathB (some "a/!/b") = "a//b" ∧
    sanitizePathB (some "a//b") = "a/b" ∧
    ("a//b" : String) ≠ "a/b" ∧
    sanitizePathB (some (sanitizePathB (some "a/!/b"))) ≠ sanitizePathB (some "a/!/b") := by
  refine ⟨by decide, by decide, by decide, by decide⟩

/-- C10 amended: all three sanitizer variants are total with `undefined`
mapped to the empty string, and no output begins or ends with a slash; the
two simple variants (first copy of `lib/functions.ts` and the `part_004`
stack) are idempotent, while the filtering variant of the second copy is
not (see the counterexample). -/
theorem c10_sanitizer_properties (o : Option String) :
    sanitizePathA none = "" ∧ sanitizePathB none = "" ∧ sanitizePathStack none = "" ∧
    (sanitizePathA o).data.head? ≠ some '/' ∧ (sanitizePathA o).data.getLast? ≠ some '/' ∧
    (sanitizePathB o).data.head? ≠ some '/' ∧ (sanitizePathB o).data.getLast? ≠ some '/' ∧
    (sanitizePathStack o).data.head? ≠ some '/' ∧
    (sanitizePathStack o).data.getLast? ≠ some '/' ∧
    sanitizePathA (some (sanitizePathA o)) = sanitizePathA o ∧
    sanitizePathStack (some (sanitizePathStack o)) = sanitizePathStack o := by
  have edgeA : ∀ o' : Option String, (sanitizePathA o').data.head? ≠ some '/' ∧
      (sanitizePathA o').data.getLast? ≠ some '/' := by
    intro o'
    match o' with
    | none => exact ⟨by simp [sanitizePathA], by simp [sanitizePathA]⟩
    | some s =>
        by_cases hs : s.data.isEmpty
        · simp [sanitizePathA, hs]
        · simp only [sanitizePathA, hs, if_neg, Bool.false_eq_true, not_false_eq_true,
            if_false, stripSlashes_data]
          exact ⟨head?_stripList_ne s.data, getLast?_stripList_ne s.data⟩
  have edgeB : (sanitizePathB o).data.head? ≠ some '/' ∧
      (sanitizePathB o).data.getLast? ≠ some '/' := by
    match o with
    | none => exact ⟨by simp [sanitizePathB], by simp [sanitizePathB]⟩
    | some s =>
        by_cases hs : s.data.isEmpty
        · simp [sanitizePathB, hs]
        · simp only [sanitizePathB, hs, Bool.false_eq_true, not_false_eq_true, if_false,
            stripSlashes_data]
          exact ⟨head?_stripList_ne _, getLast?_stripList_ne _⟩
  have idemA : ∀ o' : Option String, sanitizePathA (some (sanitizePathA o')) = sanitizePathA o' := by
    intro o'
    match o' with
    | none => rfl
    | some s =>
        by_cases hs : s.data.isEmpty
        · simp [sanitizePathA, hs]
        · simp only [sanitizePathA, hs, Bool.false_eq_true, not_false_eq_true, if_false]
          by_cases h2 : (stripSlashes s).data.isEmpty
          · rw [if_pos h2]
            exact (String.ext (by simpa [List.isEmpty_iff] using h2)).symm
          · rw [if_neg h2]
            exact String.ext (by rw [stripSlashes_data, stripSlashes_data, stripList_idem])
  refine ⟨rfl, rfl, rfl, (edgeA o).1, (edgeA o).2, edgeB.1, edgeB.2, ?_, ?_, idemA o, ?_⟩
  · have : sanitizePathStack o = sanitizePathA o := by
      cases o <;> rfl
    rw [this]; exact (edgeA o).1
  · have : sanitizePathStack o = sanitizePathA o := by
      cases o <;> rfl
    rw [this]; exact (edgeA o).2
  · have h1 : sanitizePathStack o = sanitizePathA o := by cases o <;> rfl
    have h2 : ∀ x, sanitizePathStack (some x) = sanitizePathA (some x) := fun x => rfl
    rw [h1, h2]; exact idemA o

/-! ## Stack unfolding helpers -/

theorem stackPre_split (p : Props) (hpre : stackPreOk p = true) :
    p.env.isNone = false ∧
    (p.application.data.isEmpty || p.environment.data.isEmpty || p.service.data.isEmpty)
      = false := by
  simp only [stackPreOk, Bool.and_eq_true, Bool.not_eq_true'] at hpre
  obtain ⟨⟨⟨h1, h2⟩, h3⟩, h4⟩ := hpre
  refine ⟨?_, by simp [h2, h3, h4]⟩
  cases henv : p.env with
  | none => rw [henv] at h1; simp at h1
  | some v => rfl

theorem functionStackMain_ok_token (p : Props)
    (h1 : p.env.isNone = false)
    (h2 : (p.application.data.isEmpty || p.environment.data.isEmpty ||
      p.service.data.isEmpty) = false)
    (htok : truthyS p.accessTokenSecretArn = true)
    (hsrc : sourceComplete p = true) :
    functionStackMain p = Except.ok
      (([Resource.ecrRepository
          (resourceIdPrefixA p.application p.service p.environment ++ "-repository")] ++
        functionsConstructA p) ++ pipelineConstructTrace p ++
        (if truthyS p.eventTarget then [Resource.eventsForwarder] else [])) := by
  simp [functionStackMain, h1, h2, htok, hsrc]

theorem functionStackMain_ok_no_token (p : Props)
    (h1 : p.env.isNone = false)
    (h2 : (p.application.data.isEmpty || p.environment.data.isEmpty ||
      p.service.data.isEmpty) = false)
    (htok : truthyS p.accessTokenSecretArn = false) :
    functionStackMain p = Except.ok
      ([Resource.ecrRepository
          (resourceIdPrefixA p.application p.service p.environment ++ "-repository")] ++
        functionsConstructA p) := by
  simp [functionStackMain, h1, h2, htok]

theorem functionStackMain_source_error (p : Props)
    (h1 : p.env.isNone = false)
    (h2 : (p.application.data.isEmpty || p.environment.data.isEmpty ||
      p.service.data.isEmpty) = false)
    (htok : truthyS p.accessTokenSecretArn = true)
    (hsrc : sourceComplete p = false) :
    functionStackMain p =
      Except.error "Missing sourceProps: Github owner, repo and branch/ref required." := by
  simp [functionStackMain, h1, h2, htok, hsrc]

theorem functionStackV5_ok_token (p : Props)
    (h1 : p.env.isNone = false)
    (h2 : (p.application.data.isEmpty || p.environment.data.isEmpty ||
      p.service.data.isEmpty) = false)
    (htok : truthyS p.accessTokenSecretArn = true)
    (hsrc : sourceComplete p = true)
    (hbld : buildComplete p = true) :
    functionStackV5 p = Except.ok (functionsConstructA p ++ pipelineConstructTrace p) := by
  simp [functionStackV5, h1, h2, htok, hsrc, hbld]

theorem functionStackV5_ok_no_token (p : Props)
    (h1 : p.env.isNone = false)
    (h2 : (p.application.data.isEmpty || p.environment.data.isEmpty ||
      p.service.data.isEmpty) = false)
    (htok : truthyS p.accessTokenSecretArn = false) :
    functionStackV5 p = Except.ok (functionsConstructA p) := by
  simp [functionStackV5, h1, h2, htok]

theorem functionStackV5_source_error (p : Props)
    (h1 : p.env.isNone = false)
    (h2 : (p.application.data.isEmpty || p.environment.data.isEmpty ||
      p.service.data.isEmpty) = false)
    (htok : truthyS p.accessTokenSecretArn = true)
    (hsrc : sourceComplete p = false) :
    functionStackV5 p =
      Except.error "Missing sourceProps: Github owner, repo and branch/ref required." := by
  simp [functionStackV5, h1, h2, htok, hsrc]

theorem functionStackV5_build_error (p : Props)
    (h1 : p.env.isNone = false)
    (h2 : (p.application.data.isEmpty || p.environment.data.isEmpty ||
      p.service.data.isEmpty) = false)
    (htok : truthyS p.accessTokenSecretArn = true)
    (hsrc : sourceComplete p = true)
    (hbld : buildComplete p = false) :
    functionStackV5 p = Except.error
      "Missing buildProps: runtime, runtime_version, installcmd, buildcmd and outputdir required when pipeline is enabled." := by
  simp [functionStackV5, h1, h2, htok, hsrc, hbld]

theorem countR_pipeline_constructA (p : Props) :
    countR isPipelineR (functionsConstructA p) = 0 := by
  rw [countR_constructA_eq_fnSegA isPipelineR p (fun _ _ => rfl) (fun _ _ => rfl)
    (fun _ => rfl) (fun _ _ => rfl) rfl (fun _ => rfl) (fun _ _ => rfl) (fun _ _ => rfl)
    (fun _ _ => rfl) (fun _ => rfl) (fun _ => rfl)]
  by_cases hd : truthyS (dockerFileOf p) <;>
    by_cases ht : truthyS p.accessTokenSecretArn <;>
      simp [fnSegA, hd, ht, countR, isPipelineR]

theorem countR_pipeline_trace (p : Props) :
    countR isPipelineR (pipelineConstructTrace p) = 1 := by
  by_cases hd : truthyS (dockerFileOf p) <;>
    simp [pipelineConstructTrace, hd, countR, isPipelineR]

/-- C3: pipeline resources appear in a successful stack synthesis iff an
access token is supplied, and with a token but incomplete Github source
coordinates both stack variants throw the source-props validation error
(producing no resources at all). -/
theorem c3_pipeline_iff_access_token (p : Props) :
    (truthyS p.accessTokenSecretArn = false →
      countR isPipelineR (resOfE (functionStackMain p)) = 0 ∧
      countR isPipelineR (resOfE (functionStackV5 p)) = 0) ∧
    (stackPreOk p = true → truthyS p.accessTokenSecretArn = true → sourceComplete p = true →
      isOkE (functionStackMain p) = true ∧
      countR isPipelineR (resOfE (functionStackMain p)) = 1) ∧
    (stackPreOk p = true → truthyS p.accessTokenSecretArn = true → sourceComplete p = true →
      buildComplete p = true →
      isOkE (functionStackV5 p) = true ∧
      countR isPipelineR (resOfE (functionStackV5 p)) = 1) ∧
    (stackPreOk p = true → truthyS p.accessTokenSecretArn = true → sourceComplete p = false →
      functionStackMain p =
        Except.error "Missing sourceProps: Github owner, repo and branch/ref required." ∧
      functionStackV5 p =
        Except.error "Missing sourceProps: Github owner, repo and branch/ref required.") := by
  refine ⟨?_, ?_, ?_, ?_⟩
  · intro htok
    constructor
    · cases henv : p.env with
      | none => simp [functionStackMain, henv, resOfE, countR]
      | some v =>
          by_cases hid : (p.application.data.isEmpty || p.environment.data.isEmpty ||
              p.service.data.isEmpty) = true
          · simp [functionStackMain, henv, hid, resOfE, countR]
          · have h2 := Bool.not_eq_true _ ▸ hid
            rw [functionStackMain_ok_no_token p (by rw [henv]; rfl)
              (Bool.eq_false_iff.mpr hid) htok]
            simp only [resOfE, countR_append, countR_pipeline_constructA]
            simp [countR, isPipelineR]
    · cases henv : p.env with
      | none => simp [functionStackV5, henv, resOfE, countR]
      | some v =>
          by_cases hid : (p.application.data.isEmpty || p.environment.data.isEmpty ||
              p.service.data.isEmpty) = true
          · simp [functionStackV5, henv, hid, resOfE, countR]
          · rw [functionStackV5_ok_no_token p (by rw [henv]; rfl)
              (Bool.eq_false_iff.mpr hid) htok]
            simp [resOfE, countR_pipeline_constructA]
  · intro hpre htok hsrc
    obtain ⟨h1, h2⟩ := stackPre_split p hpre
    rw [functionStackMain_ok_token p h1 h2 htok hsrc]
    constructor
    · rfl
    · simp only [resOfE, countR_append, countR_pipeline_constructA, countR_pipeline_trace]
      by_cases he : truthyS p.eventTarget <;> simp [he, countR, isPipelineR]
  · intro hpre htok hsrc hbld
    obtain ⟨h1, h2⟩ := stackPre_split p hpre
    rw [functionStackV5_ok_token p h1 h2 htok hsrc hbld]
    exact ⟨rfl, by
      simp only [resOfE, countR_append, countR_pipeline_constructA, countR_pipeline_trace]⟩
  · intro hpre htok hsrc
    obtain ⟨h1, h2⟩ := stackPre_split p hpre
    exact ⟨functionStackMain_source_error p h1 h2 htok hsrc,
      functionStackV5_source_error p h1 h2 htok hsrc⟩

/-- C3 witness: the theorem applied at a complete pipeline configuration and
at a token-free configuration. -/
theorem c3_pipeline_iff_access_token_witness :
    (isOkE (functionStackMain c3props) = true ∧
      countR isPipelineR (resOfE (functionStackMain c3props)) = 1) ∧
    countR isPipelineR (resOfE (functionStackMain c3propsNoTok)) = 0 :=
  ⟨(c3_pipeline_iff_access_token c3props).2.1 rfl rfl rfl,
   ((c3_pipeline_iff_access_token c3propsNoTok).1 rfl).1⟩

/-- C6 counterexample: the main stack (`src/stack/FunctionStack.ts`) performs
no `buildProps` validation: with the pipeline enabled, the zip-package flow
and `buildProps` entirely absent, synthesis succeeds and declares the
pipeline (the build project falls back to its defaults), contradicting the
claim that this configuration throws before any pipeline resource. -/
theorem c6_no_build_validation_counterexample :
    buildComplete c6props = false ∧
    truthyS (dockerFileOf c6props) = false ∧
    isOkE (functionStackMain c6props) = true ∧
    countR isPipelineR (resOfE (functionStackMain c6props)) = 1 ∧
    Resource.zipBuildProject "app-svc-dev-lambda-build" "nodejs" "20" "npm install"
      "npm run build" ∈ resOfE (functionStackMain c6props) := by
  refine ⟨rfl, rfl, rfl, rfl, by decide⟩

/-- C6 amended: only the `part_005` stack variant enforces `buildProps`, and
it does so whenever the pipeline is enabled, regardless of the zip/container
flow, failing with the build-props error exactly when a field is missing and
before any pipeline resource exists; the main stack variant declares the
pipeline without any `buildProps` validation, and in the zip flow the build
project resolves each missing field to its default (`nodejs`, `20`,
`npm install`, `npm run build`). -/
theorem c6_build_validation_variants (p : Props)
    (hpre : stackPreOk p = true)
    (htok : truthyS p.accessTokenSecretArn = true)
    (hsrc : sourceComplete p = true) :
    (functionStackV5 p = Except.error
        "Missing buildProps: runtime, runtime_version, installcmd, buildcmd and outputdir required when pipeline is enabled."
      ↔ buildComplete p = false) ∧
    isOkE (functionStackMain p) = true ∧
    countR isPipelineR (resOfE (functionStackMain p)) = 1 ∧
    (truthyS (dockerFileOf p) = false →
      Resource.zipBuildProject
        (resourceIdPrefixA p.application p.service p.environment ++ "-lambda-build")
        (orDefaultS (p.buildProps.bind (·.runtime)) "nodejs")
        (orDefaultS (p.buildProps.bind (·.runtime_version)) "20")
        (orDefaultS (p.buildProps.bind (·.installcmd)) "npm install")
        (orDefaultS (p.buildProps.bind (·.buildcmd)) "npm run build")
        ∈ resOfE (functionStackMain p)) := by
  obtain ⟨h1, h2⟩ := stackPre_split p hpre
  refine ⟨?_, ?_, ?_, ?_⟩
  · constructor
    · intro herr
      by_cases hbld : buildComplete p = true
      · rw [functionStackV5_ok_token p h1 h2 htok hsrc hbld] at herr
        exact absurd herr (by simp)
      · exact Bool.eq_false_iff.mpr hbld
    · intro hbld
      exact functionStackV5_build_error p h1 h2 htok hsrc hbld
  · rw [functionStackMain_ok_token p h1 h2 htok hsrc]; rfl
  · rw [functionStackMain_ok_token p h1 h2 htok hsrc]
    simp only [resOfE, countR_append, countR_pipeline_constructA, countR_pipeline_trace]
    by_cases he : truthyS p.eventTarget <;> simp [he, countR, isPipelineR]
  · intro hd
    rw [functionStackMain_ok_token p h1 h2 htok hsrc]
    simp only [resOfE, List.mem_append]
    refine Or.inl (Or.inr ?_)
    simp [pipelineConstructTrace, hd]

/-- C6 witness: at the counterexample-style configuration the part_005 stack
throws the build-props error while the main stack succeeds with a pipeline. -/
theorem c6_build_validation_variants_witness :
    functionStackV5 c6propsFull ≠ Except.error
      "Missing buildProps: runtime, runtime_version, installcmd, buildcmd and outputdir required when pipeline is enabled." ∧
    isOkE (functionStackMain c6propsFull) = true := by
  have h := c6_build_validation_variants c6propsFull rfl rfl rfl
  refine ⟨fun he => ?_, h.2.1⟩
  have : buildComplete c6propsFull = false := h.1.mp he
  simp [c6propsFull, buildComplete, truthyS] at this

/-! ## C7 helpers: environment events and grants -/

theorem envEventsOf_append (a b : List Resource) :
    envEventsOf (a ++ b) = envEventsOf a ++ envEventsOf b := by
  simp [envEventsOf]

theorem envEventsOf_map_envVar (rec : List (String × String)) :
    envEventsOf (rec.map (fun kv => Resource.envVar kv.1 kv.2)) = rec := by
  induction rec with
  | nil => rfl
  | cons kv t ih => simp only [List.map_cons, envEventsOf, List.filterMap_cons] at ih ⊢; simp [ih]

theorem envEventsOf_flat_vars (l : List (List (String × String))) :
    envEventsOf (l.flatMap (fun rec => rec.map (fun kv => Resource.envVar kv.1 kv.2))) =
      l.flatMap (fun rec => rec) := by
  induction l with
  | nil => rfl
  | cons rec t ih =>
      simp only [List.flatMap_cons, envEventsOf_append, ih, envEventsOf_map_envVar]

theorem envEventsOf_flat_secrets (l : List SecretRef) :
    envEventsOf (l.flatMap (fun s =>
      [Resource.envVar s.key (secretValueOf s.resource), Resource.secretGrant s.resource])) =
      l.map (fun s => (s.key, secretValueOf s.resource)) := by
  induction l with
  | nil => rfl
  | cons s t ih =>
      simp only [List.flatMap_cons, envEventsOf_append, ih, List.map_cons]
      rfl

theorem secretGrantsOf_flat_secrets (l : List SecretRef) :
    secretGrantsOf (l.flatMap (fun s =>
      [Resource.envVar s.key (secretValueOf s.resource), Resource.secretGrant s.resource])) =
      l.map (·.resource) := by
  induction l with
  | nil => rfl
  | cons s t ih =>
      simp only [List.flatMap_cons, secretGrantsOf, List.filterMap_append] at ih ⊢
      simp only [ih, List.map_cons]
      rfl

theorem secretGrantsOf_flat_vars (l : List (List (String × String))) :
    secretGrantsOf (l.flatMap (fun rec => rec.map (fun kv => Resource.envVar kv.1 kv.2))) =
      [] := by
  induction l with
  | nil => rfl
  | cons rec t ih =>
      simp only [List.flatMap_cons, secretGrantsOf, List.filterMap_append] at ih ⊢
      simp only [ih, List.append_nil]
      simp [List.filterMap_map, Function.comp]

theorem paramGrantsOf_flat_params (l : List SecretRef) :
    paramGrantsOf (l.flatMap (fun v =>
      [Resource.envVar v.key (paramValueOf v.resource), Resource.paramGrant v.resource])) =
      l.map (·.resource) := by
  induction l with
  | nil => rfl
  | cons v t ih =>
      simp only [List.flatMap_cons, paramGrantsOf, List.filterMap_append] at ih ⊢
      simp only [ih, List.map_cons]
      rfl

theorem envEventsOf_varSeg (p : Props) : envEventsOf (varSeg p) = varPairsOf p := by
  cases hv : varsOf p with
  | none => simp [varSeg, varPairsOf, hv, envEventsOf]
  | some l =>
      by_cases hl : 0 < l.length
      · simp only [varSeg, varPairsOf, hv, if_pos hl]
        exact envEventsOf_flat_vars l
      · have : l = [] := List.length_eq_zero.mp (Nat.eq_zero_of_not_pos hl)
        subst this
        simp [varSeg, varPairsOf, hv, envEventsOf]

theorem envEventsOf_secretSeg (p : Props) : envEventsOf (secretSeg p) = secretPairsOf p := by
  cases hs : secretsOf p with
  | none => simp [secretSeg, secretPairsOf, hs, envEventsOf]
  | some l =>
      by_cases hl : 0 < l.length
      · simp only [secretSeg, secretPairsOf, hs, if_pos hl]
        exact envEventsOf_flat_secrets l
      · have : l = [] := List.length_eq_zero.mp (Nat.eq_zero_of_not_pos hl)
        subst this
        simp [secretSeg, secretPairsOf, hs, envEventsOf]

theorem envEventsOf_constructA (p : Props) :
    envEventsOf (functionsConstructA p) = baseEnvPairs ++ varPairsOf p ++ secretPairsOf p := by
  have hfn : envEventsOf (fnSegA p) = baseEnvPairs := by
    by_cases hd : truthyS (dockerFileOf p) <;>
      by_cases ht : truthyS p.accessTokenSecretArn <;>
        simp [fnSegA, hd, ht, envEventsOf, baseEnvPairs]
  have halias : envEventsOf (aliasSegA (pcOf p)) = [] := by
    cases pcOf p <;> rfl
  have hdom : envEventsOf (domainSeg p) = [] := by
    by_cases hd : twoDomain p <;> simp [domainSeg, hd, envEventsOf]
  have hurl : envEventsOf (urlSeg p) = [] := by
    by_cases hu : urlOf p == some true <;> simp [urlSeg, hu, envEventsOf]
  have hdns : envEventsOf (dnsSeg p) = [] := by
    by_cases hd : allThreeDomain p <;> simp [dnsSeg, hd, envEventsOf]
  have hping : ∀ pre, envEventsOf (pingSeg pre p) = [] := by
    intro pre
    by_cases hk : truthyB (keepWarmOf p) <;> simp [pingSeg, hk, envEventsOf]
  simp only [functionsConstructA, envEventsOf_append, hfn, halias, hdom, hurl, hdns, hping,
    envEventsOf_varSeg, envEventsOf_secretSeg]
  simp [envEventsOf]

theorem secretGrantsOf_append (a b : List Resource) :
    secretGrantsOf (a ++ b) = secretGrantsOf a ++ secretGrantsOf b := by
  simp [secretGrantsOf]

theorem secretGrantsOf_secretSeg (p : Props) :
    secretGrantsOf (secretSeg p) =
      (match secretsOf p with
       | none => []
       | some l => l.map (·.resource)) := by
  cases hs : secretsOf p with
  | none => simp [secretSeg, hs, secretGrantsOf]
  | some l =>
      by_cases hl : 0 < l.length
      · simp only [secretSeg, hs, if_pos hl]
        exact secretGrantsOf_flat_secrets l
      · have : l = [] := List.length_eq_zero.mp (Nat.eq_zero_of_not_pos hl)
        subst this
        simp [secretSeg, hs, secretGrantsOf]

theorem secretGrantsOf_constructA (p : Props) :
    secretGrantsOf (functionsConstructA p) =
      (match secretsOf p with
       | none => []
       | some l => l.map (·.resource)) := by
  have hfn : secretGrantsOf (fnSegA p) = [] := by
    by_cases hd : truthyS (dockerFileOf p) <;>
      by_cases ht : truthyS p.accessTokenSecretArn <;>
        simp [fnSegA, hd, ht, secretGrantsOf]
  have halias : secretGrantsOf (aliasSegA (pcOf p)) = [] := by
    cases pcOf p <;> rfl
  have hvar : secretGrantsOf (varSeg p) = [] := by
    cases hv : varsOf p with
    | none => simp [varSeg, hv, secretGrantsOf]
    | some l =>
        by_cases hl : 0 < l.length
        · simp only [varSeg, hv, if_pos hl]
          exact secretGrantsOf_flat_vars l
        · have : l = [] := List.length_eq_zero.mp (Nat.eq_zero_of_not_pos hl)
          subst this
          simp [varSeg, hv, secretGrantsOf]
  have hdom : secretGrantsOf (domainSeg p) = [] := by
    by_cases hd : twoDomain p <;> simp [domainSeg, hd, secretGrantsOf]
  have hurl : secretGrantsOf (urlSeg p) = [] := by
    by_cases hu : urlOf p == some true <;> simp [urlSeg, hu, secretGrantsOf]
  have hdns : secretGrantsOf (dnsSeg p) = [] := by
    by_cases hd : allThreeDomain p <;> simp [dnsSeg, hd, secretGrantsOf]
  have hping : ∀ pre, secretGrantsOf (pingSeg pre p) = [] := by
    intro pre
    by_cases hk : truthyB (keepWarmOf p) <;> simp [pingSeg, hk, secretGrantsOf]
  simp only [functionsConstructA, secretGrantsOf_append, hfn, halias, hvar, hdom, hurl,
    hdns, hping, secretGrantsOf_secretSeg]
  simp [secretGrantsOf]

theorem paramGrantsOf_constructP1 (p : Props) :
    paramGrantsOf (functionsConstructP1 p) =
      (match p.environmentVariables with
       | none => []
       | some l => l.map (·.resource)) := by
  have halias : paramGrantsOf (aliasSegA (pcOf p)) = [] := by
    cases pcOf p <;> rfl
  have henv : paramGrantsOf (envParamSeg p) =
      (match p.environmentVariables with
       | none => []
       | some l => l.map (·.resource)) := by
    cases he : p.environmentVariables with
    | none => simp [envParamSeg, he, paramGrantsOf]
    | some l =>
        by_cases hl : 0 < l.length
        · simp only [envParamSeg, he, if_pos hl]
          have h2 := paramGrantsOf_flat_params l
          simp only [paramGrantsOf, List.filterMap_append] at h2 ⊢
          rw [h2]
          simp
        · have : l = [] := List.length_eq_zero.mp (Nat.eq_zero_of_not_pos hl)
          subst this
          simp [envParamSeg, he, paramGrantsOf]
  have hurl : paramGrantsOf
      (if urlOf p != some false then [Resource.fnUrl, Resource.output "LambdaUrl"] else [])
        = [] := by
    by_cases hu : (urlOf p != some false) = true <;> simp [hu, paramGrantsOf]
  have hdns : paramGrantsOf
      (if allThreeDomain p then
        [Resource.restApi (resourceIdPrefixA p.application p.service p.environment ++ "-API"),
         Resource.hostedZoneImport (getS p.hostedZoneId) (zoneNameOf (getS p.domain)),
         Resource.domainBinding (getS p.domain) (getS p.regionalCertificateArn),
         Resource.aRecord (getS p.domain) (zoneNameOf (getS p.domain)),
         Resource.aaaaRecord (getS p.domain) (zoneNameOf (getS p.domain)),
         Resource.output "ApiGatewayUrl"]
       else []) = [] := by
    by_cases hd : allThreeDomain p <;> simp [hd, paramGrantsOf]
  have happ : ∀ a b : List Resource,
      paramGrantsOf (a ++ b) = paramGrantsOf a ++ paramGrantsOf b := by
    intro a b
    simp [paramGrantsOf]
  simp only [functionsConstructP1, happ, halias, henv, hurl, hdns]
  cases p.environmentVariables <;> simp [paramGrantsOf]

theorem lastLookup_append (l1 l2 : List (String × String)) (k : String) :
    lastLookup (l1 ++ l2) k =
      (match lastLookup l2 k with
       | some v => some v
       | none => lastLookup l1 k) := by
  induction l1 with
  | nil => cases h : lastLookup l2 k <;> simp [lastLookup, h]
  | cons kv t ih =>
      show (match lastLookup (t ++ l2) k with
            | some v => some v
            | none => if kv.1 = k then some kv.2 else none) = _
      rw [ih]
      cases h : lastLookup l2 k <;> cases h2 : lastLookup t k <;>
        simp [lastLookup, h, h2]

theorem lastLookup_map_not_mem (L : List SecretRef) (k : String)
    (h : k ∉ L.map (·.key)) :
    lastLookup (L.map (fun s => (s.key, secretValueOf s.resource))) k = none := by
  induction L with
  | nil => rfl
  | cons a t ih =>
      simp only [List.map_cons, List.mem_cons, not_or] at h
      obtain ⟨h1, h2⟩ := h
      simp only [List.map_cons, lastLookup, ih h2]
      simp
      exact fun he => h1 he.symm

theorem lastLookup_map_mem (L : List SecretRef) (s : SecretRef)
    (hnd : (L.map (·.key)).Nodup) (hs : s ∈ L) :
    lastLookup (L.map (fun s => (s.key, secretValueOf s.resource))) s.key =
      some (secretValueOf s.resource) := by
  induction L with
  | nil => cases hs
  | cons a t ih =>
      simp only [List.map_cons, List.nodup_cons] at hnd
      obtain ⟨hna, hnt⟩ := hnd
      cases hs with
      | head => simp [lastLookup, lastLookup_map_not_mem t s.key hna]
      | tail _ hmem =>
          have := ih hnt hmem
          simp [lastLookup, this]

/-- C7: for a secrets list with pairwise distinct keys, `addSecrets` produces
exactly one read grant per entry (the grant list equals the entry resources,
in order), exactly one environment assignment per entry carrying the fetched
secret value, the final environment maps each entry key to its own secret
value, keys outside the list are untouched by the secrets segment, and the
`part_001` parameter loop likewise produces exactly one grant per entry. -/
theorem c7_secret_injection (p : Props) (L : List SecretRef)
    (hL : secretsOf p = some L)
    (hnd : (L.map (·.key)).Nodup) :
    secretGrantsOf (functionsConstructA p) = L.map (·.resource) ∧
    envEventsOf (secretSeg p) = L.map (fun s => (s.key, secretValueOf s.resource)) ∧
    (∀ s ∈ L, lastLookup (envEventsOf (functionsConstructA p)) s.key =
      some (secretValueOf s.resource)) ∧
    (∀ k, k ∉ L.map (·.key) →
      lastLookup (envEventsOf (functionsConstructA p)) k =
        lastLookup (baseEnvPairs ++ varPairsOf p) k) ∧
    paramGrantsOf (functionsConstructP1 p) =
      (match p.environmentVariables with
       | none => []
       | some l => l.map (·.resource)) := by
  have hpairs : secretPairsOf p = L.map (fun s => (s.key, secretValueOf s.resource)) := by
    simp [secretPairsOf, hL]
  refine ⟨?_, ?_, ?_, ?_, paramGrantsOf_constructP1 p⟩
  · rw [secretGrantsOf_constructA p, hL]
  · rw [envEventsOf_secretSeg p, hpairs]
  · intro s hs
    rw [envEventsOf_constructA p, lastLookup_append, hpairs,
      lastLookup_map_mem L s hnd hs]
  · intro k hk
    rw [envEventsOf_constructA p, lastLookup_append, hpairs,
      lastLookup_map_not_mem L k hk]

/-- C7 witness: the theorem evaluated on two concrete secret entries. -/
theorem c7_secret_injection_witness :
    secretGrantsOf (functionsConstructA c7props) = ["arn:s1", "arn:s2"] ∧
    lastLookup (envEventsOf (functionsConstructA c7props)) "K1" =
      some (secretValueOf "arn:s1") ∧
    lastLookup (envEventsOf (functionsConstructA c7props)) "K2" =
      some (secretValueOf "arn:s2") := by
  have h := c7_secret_injection c7props [⟨"K1", "arn:s1"⟩, ⟨"K2", "arn:s2"⟩] rfl (by decide)
  exact ⟨h.1, h.2.2.1 ⟨"K1", "arn:s1"⟩ (by decide), h.2.2.1 ⟨"K2", "arn:s2"⟩ (by decide)⟩

/-- C8: for an unrecognized runtime string the entry-point mapping does warn
and return `undefined`, and likewise for the architecture — but the metadata
merge keeps the raw string in `functionProps`, so the construct's
`runtime || NODEJS_20_X` default receives a truthy string and does not fall
back to the default: the unmapped string is passed through to the function
resource, contradicting the claimed (and commented) fallback behaviour. -/
theorem c8_no_fallback_after_unmapped_string :
    mapRuntime (some (Sum.inr "python39")) = (true, none) ∧
    mergedRuntime (some "python39") = some (Sum.inr "python39") ∧
    effectiveRuntime (mergedRuntime (some "python39")) = Sum.inr "python39" ∧
    Sum.inr "python39" ≠ (Sum.inl RuntimeV.NODEJS_20_X : Sum RuntimeV String) ∧
    mapArch (some (Sum.inr "sparc")) = (true, none) ∧
    effectiveArch (mergedArch (some "sparc")) = Sum.inr "sparc" ∧
    Sum.inr "sparc" ≠ (Sum.inl ArchV.ARM_64 : Sum ArchV String) ∧
    mapRuntime (some (Sum.inr "nodejs20.x")) = (false, some RuntimeV.NODEJS_20_X) ∧
    mapArch (some (Sum.inr "arm64")) = (false, some ArchV.ARM_64) ∧
    effectiveRuntime none = Sum.inl RuntimeV.NODEJS_20_X ∧
    effectiveArch none = Sum.inl ArchV.ARM_64 := by
  refine ⟨by decide, by decide, by decide, by decide, by decide, by decide, by decide,
    by decide, by decide, rfl, rfl⟩

end CdkFn
